import Mathlib

/-! Input decoder and configuration store of ctop

A shallow embedding of `src/btop_input.hpp`, `src/btop_input.cpp` (the decoder
`Input::get` with `Input::parse_mouse_event`) and `src/btop_config.hpp`
(`CfgStore<T>` and the typed front `CfgManager`), followed by the properties
established about them.

Conventions of the embedding:
* `std::string` / `std::string_view` are lists of characters, one `Char` per byte;
* `size_t` is a `Nat` reduced modulo `2 ^ 64`, with `npos = 2 ^ 64 - 1`;
* `int` is an `Int`; the only producer of `int`s here is `std::stoi`, which
  range-checks its result;
* a C++ exception is the `error` side of `Except`;
* writes to `std::cout` are not part of the state and are left out.
-/

namespace Btop

/-- A byte string. -/
abbrev Str := List Char

/-! ## `btop_input.hpp`: the event model -/

/-- The enumeration `EscapeCodes`. -/
inductive EscapeCodes
  | NONE | AR_UP | AR_DOWN | AR_LEFT | AR_RIGHT | INSERT | DELETE | HOME | END
  | PG_UP | PG_DOWN | TAB | SHIFT_TAB
  | F1 | F2 | F3 | F4 | F5 | F6 | F7 | F8 | F9 | F10 | F11 | F12
  | ESC | CTRL | RETURN | SPACE | BACKSPACE
  deriving DecidableEq, Repr

/-- The enumeration `EventType`. -/
inductive EventType
  | None | Char | Spec | Mouse
  deriving DecidableEq, Repr

/-- The record `MouseEvent`. -/
structure MouseEvent where
  x : Int
  y : Int
  pressed : Bool
  button : Int
  modifiers : Int
  deriving DecidableEq, Repr

/-- The record `KeyEvent`; `ch` is an `unsigned char`. -/
structure KeyEvent where
  type : EventType
  ch : Nat
  escape : EscapeCodes
  mouse : MouseEvent
  deriving DecidableEq, Repr

/-- Value-initialised `MouseEvent` (`MouseEvent ev = {}` and `.mouse = {}`). -/
def MouseEvent.zero : MouseEvent :=
  { x := 0, y := 0, pressed := false, button := 0, modifiers := 0 }

/-! ## Library functions used by the decoder -/

/-- The value `std::string::npos`. -/
def npos : Nat := 2 ^ 64 - 1

/-- Addition on `size_t`. -/
def size_add (a b : Nat) : Nat := (a + b) % 2 ^ 64

/-- Subtraction on `size_t` (wraps around below zero). -/
def size_sub (a b : Nat) : Nat := (a + 2 ^ 64 - b % 2 ^ 64) % 2 ^ 64

/-- The exceptions that can travel through the decoder, all derived from `std::exception`. -/
inductive Exn
  | invalid_argument
  | out_of_range
  | runtime_error (msg : String)
  deriving DecidableEq, Repr

/-- The test `key.starts_with(p)`. -/
def starts_with (key p : Str) : Bool := p.isPrefixOf key

/-- The call `str.find(c, pos)`: the first index `>= pos` holding `c`, or `npos`. -/
def find (str : Str) (c : Char) (pos : Nat) : Nat :=
  let tail := str.drop pos
  let i := tail.findIdx (fun d => d == c)
  if i < tail.length then pos + i else npos

/-- The call `str.find_first_of(set)`: the first index holding a character of `set`, or `npos`. -/
def find_first_of (str : Str) (set : Str) : Nat :=
  let i := str.findIdx (fun d => set.contains d)
  if i < str.length then i else npos

/-- The call `str.substr(pos, n)`: throws `out_of_range` when `pos > size()`, else the
characters from `pos` on, at most `n` of them. -/
def substr (str : Str) (pos n : Nat) : Except Exn Str :=
  if pos > str.length then .error .out_of_range else .ok ((str.drop pos).take n)

/-- The predicate `isspace` of the C locale. -/
def isspace (c : Char) : Bool :=
  c == ' ' || c == '\t' || c == '\n' || c == '\x0b' || c == '\x0c' || c == '\r'

/-- The predicate `isdigit`. -/
def isdigit (c : Char) : Bool := decide ('0'.toNat ≤ c.toNat ∧ c.toNat ≤ '9'.toNat)

/-- Value of a run of decimal digits. -/
def digitsVal (ds : Str) : Nat :=
  ds.foldl (fun acc d => acc * 10 + (d.toNat - '0'.toNat)) 0

/-- The call `std::stoi(str, &pos)` in base 10, as `strtol` behind it: leading white space is
skipped, one optional sign is read, then the longest run of digits. It throws
`invalid_argument` when there is no digit and `out_of_range` when the value does not fit an
`int`; otherwise it gives the value and the number of characters consumed. -/
def stoi (str : Str) : Except Exn (Int × Nat) :=
  let ws := str.takeWhile isspace
  let rest := str.dropWhile isspace
  let sign : Bool × Str :=
    match rest with
    | '-' :: t => (true, t)
    | '+' :: t => (false, t)
    | _ => (false, rest)
  let body := sign.2
  let digits := body.takeWhile isdigit
  if digits.isEmpty then .error .invalid_argument
  else
    let mag : Int := (digitsVal digits : Nat)
    let v : Int := if sign.1 then -mag else mag
    if v < -(2 : Int) ^ 31 ∨ (2 : Int) ^ 31 - 1 < v then .error .out_of_range
    else .ok (v, ws.length + (rest.length - body.length) + digits.length)

/-- Decimal representation of a non-negative integer, as a terminal writes it in a mouse
report. -/
def dec (n : Nat) : Str := Nat.toDigits 10 n

/-! ## `btop_input.cpp`: the decoder -/

namespace Input

/-- The table `Input::escape_chars`; a key occurs once, so lookup order is immaterial. -/
def escape_chars : List (Str × EscapeCodes) :=
  [ ("\x1b".toList, .ESC),
    ("\x12".toList, .CTRL),
    ("\n".toList, .RETURN),
    (" ".toList, .SPACE),
    ("\x7f".toList, .BACKSPACE),
    ("\x08".toList, .BACKSPACE),
    ("[A".toList, .AR_UP),
    ("[B".toList, .AR_DOWN),
    ("[D".toList, .AR_LEFT),
    ("[C".toList, .AR_RIGHT),
    ("[2~".toList, .INSERT),
    ("[4h".toList, .INSERT),
    ("[3~".toList, .DELETE),
    ("[P".toList, .DELETE),
    ("[H".toList, .HOME),
    ("[1~".toList, .HOME),
    ("[F".toList, .END),
    ("[4~".toList, .END),
    ("[5~".toList, .PG_UP),
    ("[6~".toList, .PG_DOWN),
    ("\t".toList, .TAB),
    ("[Z".toList, .SHIFT_TAB),
    ("OP".toList, .F1),
    ("OQ".toList, .F2),
    ("OR".toList, .F3),
    ("OS".toList, .F4),
    ("[15~".toList, .F5),
    ("[17~".toList, .F6),
    ("[18~".toList, .F7),
    ("[19~".toList, .F8),
    ("[20~".toList, .F9),
    ("[21~".toList, .F10),
    ("[23~".toList, .F11),
    ("[24~".toList, .F12) ]

/-- The function `Input::parse_mouse_event`. The first `if` throws on a missing separator or
terminator; the `try` block turns every exception of `substr` and `stoi` into a
`runtime_error`. -/
def parse_mouse_event (str : Str) : Except Exn MouseEvent :=
  let s1 := find str ';' 0
  let s2 := find str ';' (size_add s1 1)
  let st := find_first_of str "Mm".toList
  if s1 = npos ∨ s2 = npos ∨ st = npos then
    .error (.runtime_error "Invalid mouse sequence")
  else
    let body : Except Exn MouseEvent := do
      let fs ← substr str 2 (size_sub s1 2)
      let flags ← stoi fs
      let xs ← substr str (size_add s1 1) (size_sub (size_sub s2 s1) 1)
      let x ← stoi xs
      let ys ← substr str (size_add s2 1) (size_sub (size_sub st s2) 1)
      let y ← stoi ys
      pure { x := x.1, y := y.1, pressed := str[st]? == some 'M',
             button := Int.land flags.1 0x3,
             modifiers := Int.land (Int.shiftRight flags.1 2) 0x7 }
    match body with
    | .ok ev => .ok ev
    | .error _ => .error (.runtime_error "Failed to parse mouse sequence")

/-- The last part of `Input::get`: a key of length one holding a printable byte is a
`Char` event, anything else is no event. -/
def char_event (key : Str) : Option KeyEvent :=
  match key with
  | [c] =>
    let first := c.toNat
    if 32 ≤ first ∧ first < 127 then
      some { type := .Char, ch := first, escape := .NONE, mouse := MouseEvent.zero }
    else none
  | _ => none

/-- The function `Input::get`, on the content of the buffer `Input::input`. -/
def get (input : Str) : Option KeyEvent :=
  if input.isEmpty then none
  else if starts_with input "\x1b[".toList then
    let key := input.drop 2
    if starts_with key "[<".toList then
      match parse_mouse_event key with
      | .ok ev => some { type := .Mouse, ch := 0, escape := .NONE, mouse := ev }
      | .error _ => none
    else
      match escape_chars.lookup key with
      | some code => some { type := .Spec, ch := 0, escape := code, mouse := MouseEvent.zero }
      | none => char_event key
  else char_event input

end Input

/-! ## `btop_config.hpp`: the configuration store -/

/-- Modelled from the spec: the failure side of `DynResult<T>`, whose declaration
(`btop_shared.hpp`) is not among the sources. The source builds every failure with
`DynResult<T>::Err(message)`; the spec names the failures of the store `NotFound` and
`ValidationFailed`. The first four constructors stand for the four messages of
`btop_config.hpp`: "Config key not found: ", "Failed to validate value: ",
"Invalid boolean value: " / "Invalid integer value: ", and "Unsupported type".
`Undefined` is no failure that a call returns: it marks a call whose behaviour C++ leaves
undefined, so that neither its result nor the state after it means anything. -/
inductive DynError
  | NotFound (key : String)
  | ValidationFailed
  | ParseFailed (raw : String)
  | Unsupported
  | Undefined
  deriving DecidableEq, Repr

/-- Modelled from the spec: `DynResult<T>` (declared in `btop_shared.hpp`, not among the
sources) is a result holding either a value, built by `DynResult<T>(value)`, or a failure,
built by `DynResult<T>::Err(message)`; its `and_then(f)` applies `f` to the held value and
passes a failure through. -/
abbrev DynResult (α : Type) := Except DynError α

/-- A `std::unordered_map<std::string_view, V>`, seen through `find`. -/
abbrev CfgMap (V : Type) := String → Option V

/-- The empty map. -/
def CfgMap.empty {V : Type} : CfgMap V := fun _ => none

/-- The assignment `m[key] = val`. -/
def CfgMap.assign {V : Type} (m : CfgMap V) (key : String) (val : V) : CfgMap V :=
  fun k => if k = key then some val else m k

/-- The class template `CfgStore<T>`: the maps `active`, `temp` and `validators`. -/
structure CfgStore (T : Type) where
  active : CfgMap T
  temp : CfgMap T
  validators : CfgMap (T → Bool)

/-- The string literal on the rejection path of `set` and `stage`: 26 characters, hence an
array of 27 bytes with the closing zero. -/
def validation_literal : Str := "Failed to validate value: ".toList

/-- How the expression `"Failed to validate value: " + val` evaluates for a value type `T`:
the message handed to `DynResult<bool>::Err`, or `none` when evaluating it is undefined
behaviour. -/
class CfgValue (T : Type) where
  validation_message : T → Option Str

/-- For `T = std::string` the expression is a concatenation. -/
instance instCfgValueString : CfgValue String :=
  ⟨fun val => some (validation_literal ++ val.toList)⟩

/-- For `T = bool` the expression is the pointer to the literal moved by 0 or 1. -/
instance instCfgValueBool : CfgValue Bool :=
  ⟨fun val => some (validation_literal.drop (if val then 1 else 0))⟩

/-- For `T = int` the expression is the pointer to the literal moved by `val`: inside the
array for `0 <= val <= 26`, where it reads the rest of the literal, and outside it, or
behind its end, for every other `val`. -/
instance instCfgValueInt : CfgValue Int :=
  ⟨fun val => if 0 ≤ val ∧ val ≤ 26 then some (validation_literal.drop val.toNat) else none⟩

namespace CfgStore

variable {T : Type}

/-- A default-constructed store. -/
def new : CfgStore T :=
  { active := CfgMap.empty, temp := CfgMap.empty, validators := CfgMap.empty }

/-- The condition `validator_it != validators.end() && !validator_it->second(val)`. -/
def rejects (s : CfgStore T) (key : String) (val : T) : Bool :=
  match s.validators key with
  | some validator => !validator val
  | none => false

/-- The member `CfgStore::get`. -/
def get (s : CfgStore T) (key : String) : DynResult T :=
  match s.active key with
  | none => .error (.NotFound key)
  | some v => .ok v

/-- The statement `return DynResult<bool>::Err("Failed to validate value: " + val);` of
`set` and `stage`: the validation failure with the store as it is when the message can be
built, and the mark `Undefined` when building it is undefined behaviour. -/
def reject [CfgValue T] (s : CfgStore T) (val : T) : DynResult Bool × CfgStore T :=
  match CfgValue.validation_message val with
  | some _ => (.error .ValidationFailed, s)
  | none => (.error .Undefined, s)

/-- The member `CfgStore::set`: the result and the store afterwards. -/
def set [CfgValue T] (s : CfgStore T) (key : String) (val : T) :
    DynResult Bool × CfgStore T :=
  if s.rejects key val then s.reject val
  else (.ok true, { s with active := s.active.assign key val })

/-- The member `CfgStore::stage`: the result and the store afterwards. -/
def stage [CfgValue T] (s : CfgStore T) (key : String) (val : T) :
    DynResult Bool × CfgStore T :=
  if s.rejects key val then s.reject val
  else (.ok true, { s with temp := s.temp.assign key val })

/-- The member `CfgStore::add_validator`. -/
def add_validator (s : CfgStore T) (key : String) (validator : T → Bool) : CfgStore T :=
  { s with validators := s.validators.assign key validator }

/-- The member `CfgStore::commit`: `active = temp`. -/
def commit (s : CfgStore T) : CfgStore T :=
  { s with active := s.temp }

/-- The member `CfgStore::rollback`: `temp.clear()`. -/
def rollback (s : CfgStore T) : CfgStore T :=
  { s with temp := CfgMap.empty }

end CfgStore

/-- The three typed stores of the class `CfgManager`; its other members (paths, box and
preset lists) are not touched by the operations below. -/
structure CfgManager where
  string_store : CfgStore String
  bool_store : CfgStore Bool
  int_store : CfgStore Int

namespace CfgManager

/-- A manager whose three stores are default-constructed. -/
def new : CfgManager :=
  { string_store := CfgStore.new, bool_store := CfgStore.new, int_store := CfgStore.new }

/-- The constant `CfgManager::valid_graph_symbols`. -/
def valid_graph_symbols : List String := ["braille", "block", "tty", "default"]

/-- The member `CfgManager::setup_validators`. -/
def setup_validators (m : CfgManager) : CfgManager :=
  { m with
    string_store := m.string_store.add_validator "graph_symbol"
      (fun val => valid_graph_symbols.contains val)
    int_store := m.int_store.add_validator "update_ms"
      (fun val => decide (val ≥ 100) && decide (val ≤ 2000)) }

/-- The member `CfgManager::get<CfgI>`. -/
def get_int (m : CfgManager) (key : String) : DynResult Int :=
  m.int_store.get key

/-- The member `CfgManager::set<CfgI>`. -/
def set_int (m : CfgManager) (key : String) (val : Int) : DynResult Bool × CfgManager :=
  let r := m.int_store.set key val
  (r.1, { m with int_store := r.2 })

/-- The member `CfgManager::try_parse_int`: `std::stoi(val, &pos)`, an error when an
exception is caught or when `pos != val.length()`. -/
def try_parse_int (val : String) : DynResult Int :=
  match stoi val.toList with
  | .ok (res, pos) => if pos ≠ val.length then .error (.ParseFailed val) else .ok res
  | .error _ => .error (.ParseFailed val)

/-- Conversion of an `int` argument to a `bool` parameter. -/
def int_to_bool (n : Int) : Bool := n != 0

/-- Conversion of a `bool` argument to an `int` parameter. -/
def bool_to_int (b : Bool) : Int := if b then 1 else 0

/-- The member `CfgManager::try_set<CfgI>`:
`try_parse_int(val).and_then([this, &key](bool parsed) { return set<CfgI>(key, parsed); })`.
The continuation takes its argument as a `bool` and hands it to `set<CfgI>`, whose parameter
is a `const int&`. -/
def try_set_int (m : CfgManager) (key val : String) : DynResult Bool × CfgManager :=
  match try_parse_int val with
  | .ok res =>
    let parsed : Bool := int_to_bool res
    m.set_int key (bool_to_int parsed)
  | .error e => (.error e, m)

end CfgManager

/-! ## Further parts of the sources -/

namespace Input

/-- The table `Input::Key_escapes`, from raw key codes to readable names. -/
def Key_escapes : List (Str × String) :=
  [ ("\x1b".toList, "escape"),
    ("\x12".toList, "ctrl_r"),
    ("\n".toList, "enter"),
    (" ".toList, "space"),
    ("\x7f".toList, "backspace"),
    ("\x08".toList, "backspace"),
    ("[A".toList, "up"),
    ("OA".toList, "up"),
    ("[B".toList, "down"),
    ("OB".toList, "down"),
    ("[D".toList, "left"),
    ("OD".toList, "left"),
    ("[C".toList, "right"),
    ("OC".toList, "right"),
    ("[2~".toList, "insert"),
    ("[4h".toList, "insert"),
    ("[3~".toList, "delete"),
    ("[P".toList, "delete"),
    ("[H".toList, "home"),
    ("[1~".toList, "home"),
    ("[F".toList, "end"),
    ("[4~".toList, "end"),
    ("[5~".toList, "page_up"),
    ("[6~".toList, "page_down"),
    ("\t".toList, "tab"),
    ("[Z".toList, "shift_tab"),
    ("OP".toList, "f1"),
    ("OQ".toList, "f2"),
    ("OR".toList, "f3"),
    ("OS".toList, "f4"),
    ("[15~".toList, "f5"),
    ("[17~".toList, "f6"),
    ("[18~".toList, "f7"),
    ("[19~".toList, "f8"),
    ("[20~".toList, "f9"),
    ("[21~".toList, "f10"),
    ("[23~".toList, "f11"),
    ("[24~".toList, "f12") ]

/-- The call `escape_chars.at(key)`: throws `out_of_range` when the key is absent. -/
def escape_chars_at (key : Str) : Except Exn EscapeCodes :=
  match escape_chars.lookup key with
  | some code => .ok code
  | none => .error .out_of_range

/-- The function `Input::get` with the exceptions of its body kept visible: the result is
`error` when an exception would leave the function. The `try` around `parse_mouse_event`
has the handler `catch (const std::exception&)`, which takes every exception of `Exn`; the
access `escape_chars.at(...)` stands under the test `escape_chars.find(...) != end()` and
under no handler. -/
def get_throwing (input : Str) : Except Exn (Option KeyEvent) :=
  if input.isEmpty then .ok none
  else if starts_with input "\x1b[".toList then
    let key := input.drop 2
    if starts_with key "[<".toList then
      match parse_mouse_event key with
      | .ok ev => .ok (some { type := .Mouse, ch := 0, escape := .NONE, mouse := ev })
      | .error _ => .ok none
    else if (escape_chars.lookup key).isSome then
      match escape_chars_at key with
      | .ok code =>
        .ok (some { type := .Spec, ch := 0, escape := code, mouse := MouseEvent.zero })
      | .error e => .error e
    else .ok (char_event key)
  else .ok (char_event input)

end Input

/-- The enumeration `CfgType`. -/
inductive CfgType
  | CString | CInt | CBool
  deriving DecidableEq, Repr

/-- The variant `CfgVal`. -/
inductive CfgVal
  | S (s : String)
  | B (b : Bool)
  | I (i : Int)
  deriving DecidableEq, Repr

/-- The record `CfgItem`; `dflt` is the member `def`. -/
structure CfgItem where
  type : CfgType
  dflt : CfgVal
  deriving DecidableEq, Repr

/-- The calls that change a store's maps, for sequences of calls. -/
inductive CfgOp (T : Type)
  | set (key : String) (val : T)
  | stage (key : String) (val : T)
  | commit
  | rollback

namespace CfgStore

variable {T : Type}

/-- A store with the given validators and nothing written yet. -/
def fresh (validators : CfgMap (T → Bool)) : CfgStore T :=
  { active := CfgMap.empty, temp := CfgMap.empty, validators := validators }

/-- One call on the store; the result of `set` and `stage` is dropped. -/
def step [CfgValue T] (s : CfgStore T) : CfgOp T → CfgStore T
  | .set key val => (s.set key val).2
  | .stage key val => (s.stage key val).2
  | .commit => s.commit
  | .rollback => s.rollback

/-- A finite sequence of calls, first call first. -/
def run [CfgValue T] (s : CfgStore T) (ops : List (CfgOp T)) : CfgStore T :=
  ops.foldl step s

/-- Every entry of the map is accepted by the validator of its key, or its key has none. -/
def accepted (validators : CfgMap (T → Bool)) (m : CfgMap T) : Prop :=
  ∀ k v, m k = some v → ∀ p, validators k = some p → p v = true

end CfgStore

namespace CfgManager

/-- The catalogue `CfgManager::cfg_keys`, without the entries under `GPU_SUPPORT`. -/
def cfg_keys : List (String × CfgItem) :=
  [
    ("color_theme", CfgItem.mk CfgType.CString (CfgVal.S "Default")),
    ("shown_boxes", CfgItem.mk CfgType.CString (CfgVal.S "cpu mem net proc")),
    ("graph_symbol", CfgItem.mk CfgType.CString (CfgVal.S "braille")),
    ("presets", CfgItem.mk CfgType.CString (CfgVal.S "cpu:1:default,proc:0:default cpu:0:default,mem:0:default,net:0:default cpu:0:block,net:0:tty")),
    ("graph_symbol_cpu", CfgItem.mk CfgType.CString (CfgVal.S "default")),
    ("graph_symbol_gpu", CfgItem.mk CfgType.CString (CfgVal.S "default")),
    ("graph_symbol_mem", CfgItem.mk CfgType.CString (CfgVal.S "default")),
    ("graph_symbol_net", CfgItem.mk CfgType.CString (CfgVal.S "default")),
    ("graph_symbol_proc", CfgItem.mk CfgType.CString (CfgVal.S "default")),
    ("proc_sorting", CfgItem.mk CfgType.CString (CfgVal.S "cpu lazy")),
    ("cpu_graph_upper", CfgItem.mk CfgType.CString (CfgVal.S "Auto")),
    ("cpu_graph_lower", CfgItem.mk CfgType.CString (CfgVal.S "Auto")),
    ("cpu_sensor", CfgItem.mk CfgType.CString (CfgVal.S "Auto")),
    ("selected_battery", CfgItem.mk CfgType.CString (CfgVal.S "Auto")),
    ("cpu_core_map", CfgItem.mk CfgType.CString (CfgVal.S "")),
    ("temp_scale", CfgItem.mk CfgType.CString (CfgVal.S "celsius")),
    ("clock_format", CfgItem.mk CfgType.CString (CfgVal.S "%X")),
    ("custom_cpu_name", CfgItem.mk CfgType.CString (CfgVal.S "")),
    ("disks_filter", CfgItem.mk CfgType.CString (CfgVal.S "")),
    ("io_graph_speeds", CfgItem.mk CfgType.CString (CfgVal.S "")),
    ("net_iface", CfgItem.mk CfgType.CString (CfgVal.S "")),
    ("log_level", CfgItem.mk CfgType.CString (CfgVal.S "WARNING")),
    ("proc_filter", CfgItem.mk CfgType.CString (CfgVal.S "")),
    ("proc_command", CfgItem.mk CfgType.CString (CfgVal.S "")),
    ("selected_name", CfgItem.mk CfgType.CString (CfgVal.S "")),
    ("theme_background", CfgItem.mk CfgType.CBool (CfgVal.B true)),
    ("truecolor", CfgItem.mk CfgType.CBool (CfgVal.B true)),
    ("rounded_corners", CfgItem.mk CfgType.CBool (CfgVal.B true)),
    ("proc_reversed", CfgItem.mk CfgType.CBool (CfgVal.B false)),
    ("proc_tree", CfgItem.mk CfgType.CBool (CfgVal.B false)),
    ("proc_colors", CfgItem.mk CfgType.CBool (CfgVal.B true)),
    ("proc_gradient", CfgItem.mk CfgType.CBool (CfgVal.B true)),
    ("proc_per_core", CfgItem.mk CfgType.CBool (CfgVal.B false)),
    ("proc_mem_bytes", CfgItem.mk CfgType.CBool (CfgVal.B true)),
    ("proc_cpu_graphs", CfgItem.mk CfgType.CBool (CfgVal.B true)),
    ("proc_info_smaps", CfgItem.mk CfgType.CBool (CfgVal.B false)),
    ("proc_left", CfgItem.mk CfgType.CBool (CfgVal.B false)),
    ("proc_filter_kernel", CfgItem.mk CfgType.CBool (CfgVal.B false)),
    ("cpu_invert_lower", CfgItem.mk CfgType.CBool (CfgVal.B true)),
    ("cpu_single_graph", CfgItem.mk CfgType.CBool (CfgVal.B false)),
    ("cpu_bottom", CfgItem.mk CfgType.CBool (CfgVal.B false)),
    ("show_uptime", CfgItem.mk CfgType.CBool (CfgVal.B true)),
    ("check_temp", CfgItem.mk CfgType.CBool (CfgVal.B true)),
    ("show_coretemp", CfgItem.mk CfgType.CBool (CfgVal.B true)),
    ("show_cpu_freq", CfgItem.mk CfgType.CBool (CfgVal.B true)),
    ("background_update", CfgItem.mk CfgType.CBool (CfgVal.B true)),
    ("mem_graphs", CfgItem.mk CfgType.CBool (CfgVal.B true)),
    ("mem_below_net", CfgItem.mk CfgType.CBool (CfgVal.B false)),
    ("zfs_arc_cached", CfgItem.mk CfgType.CBool (CfgVal.B true)),
    ("show_swap", CfgItem.mk CfgType.CBool (CfgVal.B true)),
    ("swap_disk", CfgItem.mk CfgType.CBool (CfgVal.B true)),
    ("show_disks", CfgItem.mk CfgType.CBool (CfgVal.B true)),
    ("only_physical", CfgItem.mk CfgType.CBool (CfgVal.B true)),
    ("use_fstab", CfgItem.mk CfgType.CBool (CfgVal.B true)),
    ("zfs_hide_datasets", CfgItem.mk CfgType.CBool (CfgVal.B false)),
    ("show_io_stat", CfgItem.mk CfgType.CBool (CfgVal.B true)),
    ("io_mode", CfgItem.mk CfgType.CBool (CfgVal.B false)),
    ("base_10_sizes", CfgItem.mk CfgType.CBool (CfgVal.B false)),
    ("io_graph_combined", CfgItem.mk CfgType.CBool (CfgVal.B false)),
    ("net_auto", CfgItem.mk CfgType.CBool (CfgVal.B true)),
    ("net_sync", CfgItem.mk CfgType.CBool (CfgVal.B true)),
    ("show_battery", CfgItem.mk CfgType.CBool (CfgVal.B true)),
    ("show_battery_watts", CfgItem.mk CfgType.CBool (CfgVal.B true)),
    ("vim_keys", CfgItem.mk CfgType.CBool (CfgVal.B false)),
    ("tty_mode", CfgItem.mk CfgType.CBool (CfgVal.B false)),
    ("disk_free_priv", CfgItem.mk CfgType.CBool (CfgVal.B false)),
    ("force_tty", CfgItem.mk CfgType.CBool (CfgVal.B false)),
    ("lowcolor", CfgItem.mk CfgType.CBool (CfgVal.B false)),
    ("show_detailed", CfgItem.mk CfgType.CBool (CfgVal.B false)),
    ("proc_filtering", CfgItem.mk CfgType.CBool (CfgVal.B false)),
    ("proc_aggregate", CfgItem.mk CfgType.CBool (CfgVal.B false)),
    ("update_ms", CfgItem.mk CfgType.CInt (CfgVal.I 2000)),
    ("net_download", CfgItem.mk CfgType.CInt (CfgVal.I 100)),
    ("net_upload", CfgItem.mk CfgType.CInt (CfgVal.I 100)),
    ("detailed_pid", CfgItem.mk CfgType.CInt (CfgVal.I 0)),
    ("selected_pid", CfgItem.mk CfgType.CInt (CfgVal.I 0)),
    ("selected_depth", CfgItem.mk CfgType.CInt (CfgVal.I 0)),
    ("proc_start", CfgItem.mk CfgType.CInt (CfgVal.I 0)),
    ("proc_selected", CfgItem.mk CfgType.CInt (CfgVal.I 0)),
    ("proc_last_selected", CfgItem.mk CfgType.CInt (CfgVal.I 0)) ]

/-- The constant `CfgManager::ONE_DAY_MILLIS`. -/
def ONE_DAY_MILLIS : Int := 1000 * 60 * 60 * 24

/-- The member `CfgManager::get<CfgS>`. -/
def get_string (m : CfgManager) (key : String) : DynResult String :=
  m.string_store.get key

/-- The member `CfgManager::get<CfgB>`. -/
def get_bool (m : CfgManager) (key : String) : DynResult Bool :=
  m.bool_store.get key

/-- The member `CfgManager::set<CfgS>`. -/
def set_string (m : CfgManager) (key : String) (val : String) :
    DynResult Bool × CfgManager :=
  let r := m.string_store.set key val
  (r.1, { m with string_store := r.2 })

/-- The member `CfgManager::set<CfgB>`. -/
def set_bool (m : CfgManager) (key : String) (val : Bool) : DynResult Bool × CfgManager :=
  let r := m.bool_store.set key val
  (r.1, { m with bool_store := r.2 })

/-- The member `CfgManager::flip`: `(void)bool_store.set(key, !bool_store.get(key).v())`.
The result is `none` when `get` fails: what the accessor `v()` does on a result that holds
no value is not defined by the sources at hand. The result of `set` is discarded. -/
def flip (m : CfgManager) (key : String) : Option CfgManager :=
  match m.bool_store.get key with
  | .ok b => some { m with bool_store := (m.bool_store.set key (!b)).2 }
  | .error _ => none

end CfgManager

/-! ## Parsing of raw configuration values, the poll timeout and the dispatcher -/

/-- The function `::tolower` of the C locale: the letters `A` .. `Z` go to `a` .. `z`, every
other character stays. -/
def tolower (c : Char) : Char :=
  if 'A'.toNat ≤ c.toNat ∧ c.toNat ≤ 'Z'.toNat then Char.ofNat (c.toNat + 32) else c

/-- A string in ASCII lower case, in the words of the spec ("case-insensitively"). -/
def ascii_lower (s : String) : Str := s.toList.map Char.toLower

/-- A string that is, from its first to its last character, optional white space, an
optional sign and one or more decimal digits, and the integer it denotes. -/
def denotes_int (s : Str) (n : Int) : Prop :=
  ∃ ws sg ds : Str, s = ws ++ sg ++ ds
    ∧ (∀ c ∈ ws, isspace c = true)
    ∧ (sg = [] ∨ sg = ['+'] ∨ sg = ['-'])
    ∧ ds ≠ []
    ∧ (∀ c ∈ ds, isdigit c = true)
    ∧ n = (if sg = ['-'] then -(digitsVal ds : Int) else (digitsVal ds : Int))

/-- Conversion of a `uint64_t` value to a signed 64-bit type (`time_t`, `long`). -/
def to_int64 (n : Nat) : Int :=
  if n % 2 ^ 64 < 2 ^ 63 then ((n % 2 ^ 64 : Nat) : Int) else ((n % 2 ^ 64 : Nat) : Int) - 2 ^ 64

/-- The record `struct timespec`. -/
structure timespec where
  tv_sec : Int
  tv_nsec : Int
  deriving DecidableEq, Repr

namespace Input

/-- The timeout argument `waitptr` that `Input::poll` hands to `pselect` for a `uint64_t
timeout`: a null pointer (`none`) for `std::numeric_limits<uint64_t>::max()`, else the filled
`wait`. The arithmetic is that of `uint64_t`. -/
def poll_waitptr (timeout : Nat) : Option timespec :=
  if timeout ≠ 2 ^ 64 - 1 then
    some { tv_sec := to_int64 (timeout / 1000),
           tv_nsec := to_int64 ((timeout % 1000) * 1000000 % 2 ^ 64) }
  else none

/-- The function `Input::process`, on the configuration manager `g_CfgMgr`. After
`if (!key.has_value()) return;` every statement of the body stands inside one block comment
(lines 274 to 614 of `btop_input.cpp`), so the function returns without an effect for every
key. -/
def process (key : Option KeyEvent) (m : CfgManager) : CfgManager :=
  match key with
  | none => m
  | some _ => m

end Input

namespace CfgManager

/-- The member `CfgManager::try_parse_bool`. -/
def try_parse_bool (val : String) : DynResult Bool :=
  let lower : Str := val.toList.map tolower
  if lower = "true".toList ∨ lower = "1".toList ∨ lower = "yes".toList then .ok true
  else if lower = "false".toList ∨ lower = "0".toList ∨ lower = "no".toList then .ok false
  else .error (.ParseFailed val)

/-- The member `CfgManager::try_set<CfgS>`: `return set<CfgS>(key, val);`. -/
def try_set_string (m : CfgManager) (key val : String) : DynResult Bool × CfgManager :=
  m.set_string key val

/-- The member `CfgManager::try_set<CfgB>`:
`try_parse_bool(val).and_then([this, &key](bool parsed) { return set<CfgB>(key, parsed); })`. -/
def try_set_bool (m : CfgManager) (key val : String) : DynResult Bool × CfgManager :=
  match try_parse_bool val with
  | .ok parsed => m.set_bool key parsed
  | .error e => (.error e, m)

/-- The members of `CfgManager` that reach its three private stores and whose bodies are
among the sources: `setup_validators`, `set<T>`, `try_set<T>` and `flip` (`get<T>` changes
nothing). -/
inductive Call
  | setup_validators
  | set_string (key : String) (val : String)
  | set_bool (key : String) (val : Bool)
  | set_int (key : String) (val : Int)
  | try_set_string (key : String) (raw : String)
  | try_set_bool (key : String) (raw : String)
  | try_set_int (key : String) (raw : String)
  | flip (key : String)

/-- The manager after a call that returned `r`; `none` when the behaviour of the call is
undefined. -/
def after (r : DynResult Bool × CfgManager) : Option CfgManager :=
  match r.1 with
  | .error .Undefined => none
  | _ => some r.2

/-- The manager after one call; `none` when the behaviour of the call is undefined. -/
def call (m : CfgManager) : Call → Option CfgManager
  | .setup_validators => some m.setup_validators
  | .set_string key val => after (m.set_string key val)
  | .set_bool key val => after (m.set_bool key val)
  | .set_int key val => after (m.set_int key val)
  | .try_set_string key raw => after (m.try_set_string key raw)
  | .try_set_bool key raw => after (m.try_set_bool key raw)
  | .try_set_int key raw => after (m.try_set_int key raw)
  | .flip key => m.flip key

/-- The manager after a finite sequence of calls, first call first; `none` when the
behaviour of one of them is undefined. -/
def calls (m : CfgManager) : List Call → Option CfgManager
  | [] => some m
  | c :: cs =>
    match m.call c with
    | some m1 => m1.calls cs
    | none => none

end CfgManager

/-! ## Properties of the decoder -/

theorem csi_toList : "\x1b[".toList = ['\x1b', '['] := rfl

theorem mouse_lead_toList : "[<".toList = ['[', '<'] := rfl

/-- Every buffer made of `ESC [ <` and at least one more byte decodes to no event: the key
left after the two bytes `ESC [` are removed starts with `<`, which is neither the mouse
lead-in `[<` nor the first byte of a table entry, and it is longer than one byte. -/
theorem get_csi_lt_cons (c : Char) (r : Str) :
    Input.get ('\x1b' :: '[' :: '<' :: c :: r) = none := by
  simp [Input.get, starts_with, csi_toList, mouse_lead_toList, Input.escape_chars,
    List.lookup, Input.char_event]

/-- C1: the buffers `ESC [ A` and `ESC O P` do not decode to the named keys `AR_UP` and
`F1`. `Input::get` removes the two bytes `ESC [` before it consults the table, whose keys
still carry the `[`: `ESC [ A` leaves the key `A` and comes out as the character `A`, and
`ESC O P` never reaches the table. No table entry starting with `[` or `O` decodes to a
`Spec` event when it is sent after a single `ESC`. -/
theorem get_esc_table_entry_not_spec :
    Input.get "\x1b[A".toList
        = some { type := .Char, ch := 0x41, escape := .NONE, mouse := MouseEvent.zero }
      ∧ Input.get "\x1bOP".toList = none
      ∧ ∀ e ∈ Input.escape_chars.filter
            (fun e => starts_with e.1 "[".toList || starts_with e.1 "O".toList),
          (Input.get ('\x1b' :: e.1)).map (fun ev => ev.type) ≠ some EventType.Spec := by
  decide

/-- C2: an SGR mouse report `ESC [ < f ; x ; y t` decodes to no event, whatever its fields
and terminator are; the two reports of the spec's scenario are instances. The mouse branch
of `Input::get` is taken only when `[<` follows the removed `ESC [`, so only the report with
a doubled lead-in is parsed. -/
theorem get_sgr_mouse_report_none :
    Input.get "\x1b[<32;10;5M".toList = none
      ∧ Input.get "\x1b[<35;10;5m".toList = none
      ∧ (∀ (f x y : Nat) (t : Char),
          Input.get ("\x1b[<".toList ++ dec f ++ ';' :: dec x ++ ';' :: dec y ++ [t]) = none)
      ∧ Input.get "\x1b[[<32;10;5M".toList
          = some { type := .Mouse, ch := 0, escape := .NONE,
                   mouse := { x := 10, y := 5, pressed := true, button := 0, modifiers := 0 } } := by
  refine ⟨by decide, by decide, ?_, by decide⟩
  intro f x y t
  cases hf : dec f with
  | nil => exact get_csi_lt_cons _ _
  | cons d ds => exact get_csi_lt_cons _ _

/-- C6: the bare three-byte buffer `ESC [ <` decodes to the character `<` instead of no
event: after `ESC [` is removed the key is the single printable byte `<`. Every longer
buffer starting with `ESC [ <` decodes to no event. -/
theorem get_bare_mouse_lead_in_is_char :
    Input.get "\x1b[<".toList
        = some { type := .Char, ch := 0x3C, escape := .NONE, mouse := MouseEvent.zero }
      ∧ ∀ (c : Char) (r : Str), Input.get ('\x1b' :: '[' :: '<' :: c :: r) = none :=
  ⟨by decide, get_csi_lt_cons⟩

/-- C9: on a one-byte buffer `Input::get` returns the `Char` event of that byte, with escape
code `NONE`, when the byte lies in `0x20 .. 0x7E`, and no event otherwise; on the empty
buffer it returns no event. -/
theorem get_single_byte (b : Char) :
    Input.get [b]
        = (if 0x20 ≤ b.toNat ∧ b.toNat ≤ 0x7E then
            some { type := .Char, ch := b.toNat, escape := .NONE, mouse := MouseEvent.zero }
          else none)
      ∧ Input.get [] = none := by
  refine ⟨?_, rfl⟩
  have h : (b.toNat < 127) = (b.toNat ≤ 0x7E) := by
    apply propext; constructor <;> intro h <;> omega
  simp [Input.get, starts_with, csi_toList, Input.char_event, h]

/-- C10: a buffer `ESC [ b` whose last byte `b` is printable and not a space decodes to the
`Char` event of `b`, although the buffer is three bytes long: the key left after `ESC [` is
removed is not in the table and falls through to the one-printable-byte test. -/
theorem get_csi_printable_is_char (b : Char) (h1 : 0x20 < b.toNat) (h2 : b.toNat ≤ 0x7E) :
    Input.get ['\x1b', '[', b]
      = some { type := .Char, ch := b.toNat, escape := .NONE, mouse := MouseEvent.zero } := by
  have hne : ∀ d : Char, (d.toNat ≤ 0x20 ∨ 0x7E < d.toNat) → (b == d) = false := by
    intro d hd
    apply beq_false_of_ne
    intro hbd
    subst hbd
    omega
  have e1 := hne '\x1b' (by decide)
  have e2 := hne '\x12' (by decide)
  have e3 := hne '\n' (by decide)
  have e4 := hne ' ' (by decide)
  have e5 := hne '\x7f' (by decide)
  have e6 := hne '\x08' (by decide)
  have e7 := hne '\t' (by decide)
  have h3 : b.toNat < 127 := by omega
  have h4 : 32 ≤ b.toNat := by omega
  simp [Input.get, starts_with, csi_toList, mouse_lead_toList, Input.escape_chars,
    List.lookup, Input.char_event, e1, e2, e3, e4, e5, e6, e7, h3, h4]

/-- Witness of C10 at the byte `x`. -/
theorem get_csi_printable_is_char_witness :
    0x20 < 'x'.toNat ∧ 'x'.toNat ≤ 0x7E
      ∧ Input.get ['\x1b', '[', 'x']
          = some { type := .Char, ch := 0x78, escape := .NONE, mouse := MouseEvent.zero } :=
  ⟨by decide, by decide, get_csi_printable_is_char 'x' (by decide) (by decide)⟩

/-! ## Properties of the configuration store -/

theorem CfgMap.assign_same {V : Type} (m : CfgMap V) (k : String) (v : V) :
    m.assign k v k = some v := by
  simp [CfgMap.assign]

theorem CfgStore.rejects_eq_false {T : Type} (s : CfgStore T) (k : String) (v : T)
    (hv : ∀ p, s.validators k = some p → p v = true) : s.rejects k v = false := by
  unfold CfgStore.rejects
  cases h : s.validators k with
  | none => rfl
  | some p => simp [hv p h]

theorem CfgStore.rejects_eq_true {T : Type} (s : CfgStore T) (k : String) (p : T → Bool)
    (v : T) (hp : s.validators k = some p) (hr : p v = false) : s.rejects k v = true := by
  simp [CfgStore.rejects, hp, hr]

theorem CfgStore.reject_snd {T : Type} [CfgValue T] (s : CfgStore T) (v : T) :
    (s.reject v).2 = s := by
  unfold CfgStore.reject
  cases CfgValue.validation_message v <;> rfl

theorem CfgStore.reject_fst_ne_ok {T : Type} [CfgValue T] (s : CfgStore T) (v : T) :
    ¬ (s.reject v).1 = .ok true := by
  unfold CfgStore.reject
  cases CfgValue.validation_message v <;> simp

theorem CfgStore.reject_string (s : CfgStore String) (v : String) :
    s.reject v = (.error .ValidationFailed, s) := rfl

theorem CfgStore.reject_bool (s : CfgStore Bool) (v : Bool) :
    s.reject v = (.error .ValidationFailed, s) := rfl

theorem CfgStore.reject_int_in_literal (s : CfgStore Int) (v : Int) (h0 : 0 ≤ v)
    (h1 : v ≤ 26) : s.reject v = (.error .ValidationFailed, s) := by
  have h : CfgValue.validation_message v = some (validation_literal.drop v.toNat) := by
    show (if 0 ≤ v ∧ v ≤ 26 then some (validation_literal.drop v.toNat) else none) = _
    rw [if_pos ⟨h0, h1⟩]
  unfold CfgStore.reject
  rw [h]

theorem CfgStore.reject_int_outside (s : CfgStore Int) (v : Int) (h : ¬ (0 ≤ v ∧ v ≤ 26)) :
    s.reject v = (.error .Undefined, s) := by
  have hm : CfgValue.validation_message v = none := by
    show (if 0 ≤ v ∧ v ≤ 26 then some (validation_literal.drop v.toNat) else none) = _
    rw [if_neg h]
  unfold CfgStore.reject
  rw [hm]

theorem CfgStore.set_validators {T : Type} [CfgValue T] (s : CfgStore T) (k : String)
    (v : T) : (s.set k v).2.validators = s.validators := by
  unfold CfgStore.set
  cases s.rejects k v
  · rfl
  · simp only [if_true, CfgStore.reject_snd]

/-- C3: when the validator of `k` accepts `v`, or `k` has no validator, `stage(k, v)`
succeeds and `commit()` after it makes `get(k)` return `v`. -/
theorem stage_commit_get {T : Type} [CfgValue T] (s : CfgStore T) (k : String) (v : T)
    (hv : ∀ p, s.validators k = some p → p v = true) :
    (s.stage k v).1 = .ok true ∧ (s.stage k v).2.commit.get k = .ok v := by
  have h := CfgStore.rejects_eq_false s k v hv
  simp [CfgStore.stage, h, CfgStore.commit, CfgStore.get, CfgMap.assign_same]

/-- Witness of C3: the refresh interval 500 staged and committed on the integer store of a
manager whose validators are installed. -/
theorem stage_commit_get_witness :
    (∀ p, CfgManager.new.setup_validators.int_store.validators "update_ms" = some p
        → p 500 = true)
      ∧ (CfgManager.new.setup_validators.int_store.stage "update_ms" 500).1 = .ok true
      ∧ (CfgManager.new.setup_validators.int_store.stage "update_ms" 500).2.commit.get
          "update_ms" = .ok 500 := by
  have hv : ∀ p, CfgManager.new.setup_validators.int_store.validators "update_ms" = some p
      → p 500 = true := by
    intro p hp
    simp [CfgManager.setup_validators, CfgStore.add_validator, CfgMap.assign] at hp
    subst hp
    decide
  exact ⟨hv, stage_commit_get _ "update_ms" 500 hv⟩

/-- C4: `stage(k, v)` followed by `rollback()` leaves the result of `get` as it was before
the `stage`, for every key; `rollback()` empties the staged map and keeps the active map. -/
theorem stage_rollback_get {T : Type} [CfgValue T] (s : CfgStore T) (k : String) (v : T)
    (k' : String) :
    (s.stage k v).2.rollback.get k' = s.get k'
      ∧ (s.stage k v).2.rollback.temp = CfgMap.empty
      ∧ (s.stage k v).2.rollback.active = s.active
      ∧ s.rollback.temp = CfgMap.empty
      ∧ s.rollback.active = s.active := by
  cases h : s.rejects k v <;>
    simp [CfgStore.stage, h, CfgStore.rollback, CfgStore.get, CfgStore.reject_snd]

/-- C5: when the validator of `k` rejects `v`, `set(k, v)` and `stage(k, v)` return the
validation error and leave the store as it was only if the message
`"Failed to validate value: " + val` can be built: always for strings and booleans, for an
`int` only when `0 <= val <= 26`. For every other `int` the expression moves a pointer out
of the literal and the call has undefined behaviour; `set<int>("update_ms", 50)` on a
manager whose validators are installed is such a call. -/
theorem set_stage_rejected {T : Type} [CfgValue T] (s : CfgStore T) (k : String)
    (p : T → Bool) (v : T) (hp : s.validators k = some p) (hr : p v = false) :
    ((∃ msg, CfgValue.validation_message v = some msg) →
        s.set k v = (.error .ValidationFailed, s)
          ∧ s.stage k v = (.error .ValidationFailed, s))
      ∧ (CfgValue.validation_message v = none →
        (s.set k v).1 = .error .Undefined ∧ (s.stage k v).1 = .error .Undefined)
      ∧ (∀ val : String, ∃ msg, CfgValue.validation_message val = some msg)
      ∧ (∀ val : Bool, ∃ msg, CfgValue.validation_message val = some msg)
      ∧ (∀ val : Int, (∃ msg, CfgValue.validation_message val = some msg)
          ↔ (0 ≤ val ∧ val ≤ 26))
      ∧ ∀ m : CfgManager,
          (m.setup_validators.set_int "update_ms" 50).1 = .error .Undefined := by
  have h := CfgStore.rejects_eq_true s k p v hp hr
  refine ⟨?_, ?_, fun val => ⟨_, rfl⟩, fun val => ⟨_, rfl⟩, ?_, ?_⟩
  · rintro ⟨msg, hmsg⟩
    simp [CfgStore.set, CfgStore.stage, h, CfgStore.reject, hmsg]
  · intro hmsg
    simp [CfgStore.set, CfgStore.stage, h, CfgStore.reject, hmsg]
  · intro val
    show (∃ msg, (if 0 ≤ val ∧ val ≤ 26 then some (validation_literal.drop val.toNat)
      else none) = some msg) ↔ _
    by_cases hc : 0 ≤ val ∧ val ≤ 26
    · simp [hc]
    · simp [hc]
  · intro m
    have hm : m.setup_validators.int_store.rejects "update_ms" 50 = true := by
      simp [CfgManager.setup_validators, CfgStore.add_validator, CfgStore.rejects,
        CfgMap.assign]
    have hmsg : CfgValue.validation_message (50 : Int) = none := rfl
    simp [CfgManager.set_int, CfgStore.set, hm, CfgStore.reject, hmsg]

/-- Witness of C5: the refresh interval set to 2000 and then to 50 on the integer store of
a manager whose validators are installed. -/
theorem set_stage_rejected_witness :
    (CfgManager.new.setup_validators.set_int "update_ms" 2000).2.int_store.validators
        "update_ms" = some (fun val => decide (val ≥ 100) && decide (val ≤ 2000))
      ∧ (fun val : Int => decide (val ≥ 100) && decide (val ≤ 2000)) 50 = false
      ∧ CfgValue.validation_message (50 : Int) = none
      ∧ ((CfgManager.new.setup_validators.set_int "update_ms" 2000).2.int_store.set
          "update_ms" 50).1 = .error .Undefined
      ∧ ((CfgManager.new.setup_validators.set_int "update_ms" 2000).2.int_store.stage
          "update_ms" 50).1 = .error .Undefined := by
  have hp : (CfgManager.new.setup_validators.set_int "update_ms" 2000).2.int_store.validators
      "update_ms" = some (fun val => decide (val ≥ 100) && decide (val ≤ 2000)) := rfl
  have hr : (fun val : Int => decide (val ≥ 100) && decide (val ≤ 2000)) 50 = false := by
    decide
  have hmsg : CfgValue.validation_message (50 : Int) = none := rfl
  have h := (set_stage_rejected _ "update_ms" _ 50 hp hr).2.1 hmsg
  exact ⟨hp, hr, hmsg, h.1, h.2⟩

/-- C7: `try_set<int>("net_download", "100")` succeeds but leaves `net_download == 1`, not
100: the continuation given to `and_then` takes the parsed number as a `bool`. For the same
reason `try_set<int>("update_ms", "500")` is rejected by the validator, which is shown 1. -/
theorem try_set_int_stores_one :
    (CfgManager.new.setup_validators.try_set_int "net_download" "100").1 = .ok true
      ∧ (CfgManager.new.setup_validators.try_set_int "net_download" "100").2.get_int
          "net_download" = .ok 1
      ∧ (CfgManager.new.setup_validators.try_set_int "update_ms" "500").1
          = .error .ValidationFailed :=
  ⟨rfl, rfl, rfl⟩

/-- C8: `commit()` replaces the active map by the staged map: afterwards `get(k)` returns
the value staged for `k` when there is one and `NotFound` otherwise, whatever the active map
held; after `rollback()` and `commit()` every `get` returns `NotFound`. -/
theorem commit_get {T : Type} (s : CfgStore T) (k : String) :
    s.commit.get k
        = (match s.temp k with
          | some v => .ok v
          | none => .error (.NotFound k))
      ∧ (∀ v, s.commit.get k = .ok v ↔ s.temp k = some v)
      ∧ s.rollback.commit.get k = .error (.NotFound k) := by
  refine ⟨?_, ?_, rfl⟩
  · simp only [CfgStore.commit, CfgStore.get]
    cases s.temp k <;> rfl
  · intro v
    cases h : s.temp k <;> simp [CfgStore.commit, CfgStore.get, h]

/-! ## Further properties of the decoder -/

/-- C11: the table `escape_chars` holds no entry for the ESC-O arrow suffixes `OA`, `OB`,
`OC`, `OD`, which the sibling table `Key_escapes` maps to the names of `[A`, `[B`, `[C`,
`[D`; the buffer `ESC O A` decodes to no event. The other aliases are in the table and agree
pairwise. -/
theorem escape_chars_lacks_esc_O_arrows :
    (Input.escape_chars.lookup "OA".toList = none
        ∧ Input.escape_chars.lookup "OB".toList = none
        ∧ Input.escape_chars.lookup "OC".toList = none
        ∧ Input.escape_chars.lookup "OD".toList = none)
      ∧ (Input.Key_escapes.lookup "OA".toList = Input.Key_escapes.lookup "[A".toList
        ∧ Input.Key_escapes.lookup "OB".toList = Input.Key_escapes.lookup "[B".toList
        ∧ Input.Key_escapes.lookup "OC".toList = Input.Key_escapes.lookup "[C".toList
        ∧ Input.Key_escapes.lookup "OD".toList = Input.Key_escapes.lookup "[D".toList
        ∧ Input.Key_escapes.lookup "OA".toList = some "up")
      ∧ (Input.escape_chars.lookup "[A".toList = some EscapeCodes.AR_UP
        ∧ Input.escape_chars.lookup "[B".toList = some EscapeCodes.AR_DOWN
        ∧ Input.escape_chars.lookup "[C".toList = some EscapeCodes.AR_RIGHT
        ∧ Input.escape_chars.lookup "[D".toList = some EscapeCodes.AR_LEFT)
      ∧ (Input.escape_chars.lookup "[2~".toList = some EscapeCodes.INSERT
        ∧ Input.escape_chars.lookup "[4h".toList = some EscapeCodes.INSERT
        ∧ Input.escape_chars.lookup "[3~".toList = some EscapeCodes.DELETE
        ∧ Input.escape_chars.lookup "[P".toList = some EscapeCodes.DELETE
        ∧ Input.escape_chars.lookup "[H".toList = some EscapeCodes.HOME
        ∧ Input.escape_chars.lookup "[1~".toList = some EscapeCodes.HOME
        ∧ Input.escape_chars.lookup "[F".toList = some EscapeCodes.END
        ∧ Input.escape_chars.lookup "[4~".toList = some EscapeCodes.END)
      ∧ Input.get "\x1bOA".toList = none
      ∧ Input.get "\x1b[OA".toList = none := by
  decide

/-- C12: `Input::get` returns normally on every buffer, with an event or with none: each
exception of `parse_mouse_event` ends in the handler of `get`, and `escape_chars.at` is
reached only with a key that `escape_chars.find` has found. The value returned is the one
of `Input.get`. -/
theorem get_never_raises (input : Str) :
    Input.get_throwing input = .ok (Input.get input) := by
  unfold Input.get_throwing Input.get
  by_cases h0 : input.isEmpty = true
  · simp [h0]
  · by_cases h1 : starts_with input "\x1b[".toList = true
    · by_cases h2 : starts_with (input.drop 2) "[<".toList = true
      · simp only [h0, h1, h2, if_true]
        cases Input.parse_mouse_event (input.drop 2) <;> rfl
      · simp only [h0, h1, h2, if_true, Input.escape_chars_at]
        cases Input.escape_chars.lookup (input.drop 2) <;> rfl
    · simp only [h0, h1]
      rfl

/-! ## Further properties of the configuration store -/

theorem CfgMap.assign_other {V : Type} (m : CfgMap V) (k : String) (v : V) (k' : String)
    (h : k' ≠ k) : m.assign k v k' = m k' := by
  simp [CfgMap.assign, h]

/-- C13: when the validator of `k` accepts `v`, or `k` has no validator, `set(k, v)`
returns success, `get(k)` then returns `v`, `get` of every other key is unchanged, and the
staged map and the validators are unchanged. -/
theorem set_accepted {T : Type} [CfgValue T] (s : CfgStore T) (k : String) (v : T)
    (hv : ∀ p, s.validators k = some p → p v = true) :
    (s.set k v).1 = .ok true
      ∧ (s.set k v).2.get k = .ok v
      ∧ (∀ k', k' ≠ k → (s.set k v).2.get k' = s.get k')
      ∧ (s.set k v).2.temp = s.temp
      ∧ (s.set k v).2.validators = s.validators := by
  have h := CfgStore.rejects_eq_false s k v hv
  refine ⟨by simp [CfgStore.set, h], ?_, ?_, by simp [CfgStore.set, h],
    by simp [CfgStore.set, h]⟩
  · simp [CfgStore.set, h, CfgStore.get, CfgMap.assign_same]
  · intro k' hk
    simp [CfgStore.set, h, CfgStore.get, CfgMap.assign_other _ _ _ _ hk]

/-- Witness of C13: the refresh interval set to 500 on an integer store that already holds
`net_download`, with the validators of the manager installed. -/
theorem set_accepted_witness :
    (∀ p, (CfgManager.new.setup_validators.set_int "net_download" 100).2.int_store.validators
          "update_ms" = some p → p 500 = true)
      ∧ ((CfgManager.new.setup_validators.set_int "net_download" 100).2.int_store.set
          "update_ms" 500).1 = .ok true
      ∧ ((CfgManager.new.setup_validators.set_int "net_download" 100).2.int_store.set
          "update_ms" 500).2.get "update_ms" = .ok 500
      ∧ ((CfgManager.new.setup_validators.set_int "net_download" 100).2.int_store.set
          "update_ms" 500).2.get "net_download" = .ok 100 := by
  have hv : ∀ p,
      (CfgManager.new.setup_validators.set_int "net_download" 100).2.int_store.validators
        "update_ms" = some p → p 500 = true := by
    intro p hp
    have hq : (CfgManager.new.setup_validators.set_int "net_download" 100).2.int_store.validators
        "update_ms" = some (fun val => decide (val ≥ 100) && decide (val ≤ 2000)) := rfl
    rw [hq] at hp
    cases hp
    decide
  have h := set_accepted _ "update_ms" 500 hv
  exact ⟨hv, h.1, h.2.1, rfl⟩

/-- C14: a successful `stage(k, v)` records `k -> v` in the staged map and changes nothing
else: the active map and the validators are as before, so `get` returns for every key what
it returned before. -/
theorem stage_success_frame {T : Type} [CfgValue T] (s : CfgStore T) (k : String) (v : T)
    (h : (s.stage k v).1 = .ok true) :
    (s.stage k v).2.temp = s.temp.assign k v
      ∧ (s.stage k v).2.temp k = some v
      ∧ (s.stage k v).2.active = s.active
      ∧ (s.stage k v).2.validators = s.validators
      ∧ ∀ k', (s.stage k v).2.get k' = s.get k' := by
  cases hr : s.rejects k v
  · simp [CfgStore.stage, hr, CfgStore.get, CfgMap.assign_same]
  · simp only [CfgStore.stage, hr, if_true] at h
    exact absurd h (CfgStore.reject_fst_ne_ok s v)

/-- Witness of C14: `proc_filter` staged on a string store that holds an active value. -/
theorem stage_success_frame_witness :
    (((CfgManager.new.setup_validators.set_string "proc_filter" "").2.string_store.stage
          "proc_filter" "ssh").1 = .ok true)
      ∧ ((CfgManager.new.setup_validators.set_string "proc_filter" "").2.string_store.stage
          "proc_filter" "ssh").2.temp "proc_filter" = some "ssh"
      ∧ ((CfgManager.new.setup_validators.set_string "proc_filter" "").2.string_store.stage
          "proc_filter" "ssh").2.get "proc_filter" = .ok "" := by
  have hs : ((CfgManager.new.setup_validators.set_string "proc_filter" "").2.string_store.stage
      "proc_filter" "ssh").1 = .ok true := rfl
  have h := stage_success_frame _ "proc_filter" "ssh" hs
  exact ⟨hs, h.2.1, rfl⟩

theorem CfgStore.set_ok_iff {T : Type} [CfgValue T] (s : CfgStore T) (k : String) (v : T) :
    (s.set k v).1 = .ok true ↔ ∀ p, s.validators k = some p → p v = true := by
  unfold CfgStore.set CfgStore.rejects
  cases h : s.validators k with
  | none => simp
  | some q => cases hq : q v <;> simp [hq, CfgStore.reject_fst_ne_ok]

theorem CfgStore.stage_ok_iff {T : Type} [CfgValue T] (s : CfgStore T) (k : String) (v : T) :
    (s.stage k v).1 = .ok true ↔ ∀ p, s.validators k = some p → p v = true := by
  unfold CfgStore.stage CfgStore.rejects
  cases h : s.validators k with
  | none => simp
  | some q => cases hq : q v <;> simp [hq, CfgStore.reject_fst_ne_ok]

theorem CfgStore.set_not_ok {T : Type} [CfgValue T] (s : CfgStore T) (k : String) (v : T)
    (h : ¬ (s.set k v).1 = .ok true) (msg : Str)
    (hmsg : CfgValue.validation_message v = some msg) :
    s.set k v = (.error .ValidationFailed, s) := by
  unfold CfgStore.set at h ⊢
  cases hr : s.rejects k v <;> simp [hr, CfgStore.reject, hmsg] at h ⊢

/-- C15 (as stated, refuted): after `stage("k1", 1); commit()` on an empty store the staged
map still holds `k1`, and after `stage("k1", 1); commit(); stage("k2", 2); commit()` the
active map holds `k1` as well as `k2`. -/
theorem commit_consumes_staged_counterexample :
    (¬ ∀ k, ((CfgStore.new : CfgStore Int).run [.stage "k1" 1, .commit]).temp k = none)
      ∧ ((CfgStore.new : CfgStore Int).run
          [.stage "k1" 1, .commit, .stage "k2" 2, .commit]).get "k1" = .ok 1
      ∧ ((CfgStore.new : CfgStore Int).run
          [.stage "k1" 1, .commit, .stage "k2" 2, .commit]).get "k2" = .ok 2 :=
  ⟨fun h => absurd (h "k1") (by decide), rfl, rfl⟩

/-- C15 (amended): `commit()` copies the staged map into the active map and leaves the
staged map as it was; edits staged before one commit are therefore applied again by the
next one: `stage(k1, v1); commit(); stage(k2, v2); commit()` with accepted values and
`k1 ≠ k2` leaves both `k1` and `k2` in the active map. -/
theorem commit_keeps_staged {T : Type} [CfgValue T] (s : CfgStore T) (k1 k2 : String) (v1 v2 : T)
    (h1 : ∀ p, s.validators k1 = some p → p v1 = true)
    (h2 : ∀ p, s.validators k2 = some p → p v2 = true) (hne : k1 ≠ k2) :
    s.commit.temp = s.temp
      ∧ s.commit.active = s.temp
      ∧ (s.run [.stage k1 v1, .commit, .stage k2 v2, .commit]).get k1 = .ok v1
      ∧ (s.run [.stage k1 v1, .commit, .stage k2 v2, .commit]).get k2 = .ok v2 := by
  have r1 := CfgStore.rejects_eq_false s k1 v1 h1
  have r2 : ∀ s' : CfgStore T, s'.validators = s.validators → s'.rejects k2 v2 = false :=
    fun s' hs => CfgStore.rejects_eq_false s' k2 v2 (by rw [hs]; exact h2)
  refine ⟨rfl, rfl, ?_, ?_⟩
  · simp [CfgStore.run, CfgStore.step, CfgStore.stage, CfgStore.commit, r1, r2,
      CfgStore.get, CfgMap.assign, hne]
  · simp [CfgStore.run, CfgStore.step, CfgStore.stage, CfgStore.commit, r1, r2,
      CfgStore.get, CfgMap.assign]

/-- Witness of C15 (amended): two integer keys without validators on an empty store. -/
theorem commit_keeps_staged_witness :
    (∀ p, (CfgStore.new : CfgStore Int).validators "k1" = some p → p 1 = true)
      ∧ (∀ p, (CfgStore.new : CfgStore Int).validators "k2" = some p → p 2 = true)
      ∧ "k1" ≠ "k2"
      ∧ ((CfgStore.new : CfgStore Int).run
          [.stage "k1" 1, .commit, .stage "k2" 2, .commit]).get "k1" = .ok 1
      ∧ ((CfgStore.new : CfgStore Int).run
          [.stage "k1" 1, .commit, .stage "k2" 2, .commit]).get "k2" = .ok 2 := by
  have h1 : ∀ p, (CfgStore.new : CfgStore Int).validators "k1" = some p → p 1 = true :=
    fun p hp => by cases hp
  have h2 : ∀ p, (CfgStore.new : CfgStore Int).validators "k2" = some p → p 2 = true :=
    fun p hp => by cases hp
  have hne : "k1" ≠ "k2" := by decide
  have h := commit_keeps_staged (CfgStore.new : CfgStore Int) "k1" "k2" 1 2 h1 h2 hne
  exact ⟨h1, h2, hne, h.2.2.1, h.2.2.2⟩

/-- C16: `add_validator(k, p)` changes neither the active nor the staged map, so every
`get` answers as before; afterwards `set(k, v)` and `stage(k, v)` succeed exactly when
`p v` holds, whatever validator `k` had; the validators of the other keys are as before. -/
theorem add_validator_effect {T : Type} [CfgValue T] (s : CfgStore T) (k : String) (p : T → Bool) :
    (s.add_validator k p).active = s.active
      ∧ (s.add_validator k p).temp = s.temp
      ∧ (∀ k', (s.add_validator k p).get k' = s.get k')
      ∧ (∀ v, ((s.add_validator k p).set k v).1 = .ok true ↔ p v = true)
      ∧ (∀ v, ((s.add_validator k p).stage k v).1 = .ok true ↔ p v = true)
      ∧ (∀ k', (s.add_validator k p).validators k'
          = if k' = k then some p else s.validators k') := by
  refine ⟨rfl, rfl, fun _ => rfl, ?_, ?_, fun _ => rfl⟩
  · intro v
    rw [CfgStore.set_ok_iff]
    simp [CfgStore.add_validator, CfgMap.assign]
  · intro v
    rw [CfgStore.stage_ok_iff]
    simp [CfgStore.add_validator, CfgMap.assign]

theorem CfgStore.step_accepted {T : Type} [CfgValue T] (V : CfgMap (T → Bool)) (s : CfgStore T)
    (op : CfgOp T) (hV : s.validators = V) (ha : CfgStore.accepted V s.active)
    (ht : CfgStore.accepted V s.temp) :
    (s.step op).validators = V ∧ CfgStore.accepted V (s.step op).active
      ∧ CfgStore.accepted V (s.step op).temp := by
  cases op with
  | set key val =>
    simp only [CfgStore.step, CfgStore.set]
    cases hr : s.rejects key val
    · refine ⟨hV, ?_, ht⟩
      intro k v hk p hp
      simp only [Bool.false_eq_true, if_false, CfgMap.assign] at hk
      by_cases hkk : k = key
      · subst hkk
        simp only [if_true, Option.some.injEq] at hk
        subst hk
        rw [← hV] at hp
        simpa [CfgStore.rejects, hp] using hr
      · simp only [hkk, if_false] at hk
        exact ha k v hk p hp
    · simp only [if_true, CfgStore.reject_snd]
      exact ⟨hV, ha, ht⟩
  | stage key val =>
    simp only [CfgStore.step, CfgStore.stage]
    cases hr : s.rejects key val
    · refine ⟨hV, ha, ?_⟩
      intro k v hk p hp
      simp only [Bool.false_eq_true, if_false, CfgMap.assign] at hk
      by_cases hkk : k = key
      · subst hkk
        simp only [if_true, Option.some.injEq] at hk
        subst hk
        rw [← hV] at hp
        simpa [CfgStore.rejects, hp] using hr
      · simp only [hkk, if_false] at hk
        exact ht k v hk p hp
    · simp only [if_true, CfgStore.reject_snd]
      exact ⟨hV, ha, ht⟩
  | commit => exact ⟨hV, ht, ht⟩
  | rollback =>
    refine ⟨hV, ha, ?_⟩
    intro k v hk
    simp [CfgStore.step, CfgStore.rollback, CfgMap.empty] at hk

theorem CfgStore.run_accepted_of {T : Type} [CfgValue T]
    (V : CfgMap (T → Bool)) (ops : List (CfgOp T)) :
    ∀ s : CfgStore T, s.validators = V → CfgStore.accepted V s.active →
      CfgStore.accepted V s.temp →
      (s.run ops).validators = V ∧ CfgStore.accepted V (s.run ops).active
        ∧ CfgStore.accepted V (s.run ops).temp := by
  induction ops with
  | nil => intro s hV ha ht; exact ⟨hV, ha, ht⟩
  | cons op rest ih =>
    intro s hV ha ht
    have h := CfgStore.step_accepted V s op hV ha ht
    exact ih (s.step op) h.1 h.2.1 h.2.2

/-- C17: from a store with fixed validators and nothing written, after every finite
sequence of `set`, `stage`, `commit` and `rollback` each entry `k -> v` of the active map
and of the staged map is such that `k` has no validator or the validator of `k` accepts
`v`; the validators are the ones the store started with. -/
theorem run_accepted {T : Type} [CfgValue T]
    (validators : CfgMap (T → Bool)) (ops : List (CfgOp T)) :
    CfgStore.accepted validators ((CfgStore.fresh validators).run ops).active
      ∧ CfgStore.accepted validators ((CfgStore.fresh validators).run ops).temp
      ∧ ((CfgStore.fresh validators).run ops).validators = validators := by
  have h0 : CfgStore.accepted validators (CfgMap.empty : CfgMap T) := by
    intro k v hk
    simp [CfgMap.empty] at hk
  have h := CfgStore.run_accepted_of validators ops (CfgStore.fresh validators) rfl h0 h0
  exact ⟨h.2.1, h.2.2, h.1⟩

/-! ## Further properties of the configuration manager -/

/-- C18: with the validators installed, `set<int>("update_ms", v)` succeeds exactly for
`100 <= v <= 2000`, although `ONE_DAY_MILLIS` is 86400000: the validator of the key turns
3000 and 86399900 away, so neither call succeeds; what the call does instead is the
rejection path of `set`, whose message expression is undefined for these values. -/
theorem update_ms_accepted_range (m : CfgManager) (v : Int) :
    ((m.setup_validators.set_int "update_ms" v).1 = .ok true ↔ (100 ≤ v ∧ v ≤ 2000))
      ∧ m.setup_validators.int_store.rejects "update_ms" 3000 = true
      ∧ ¬ (m.setup_validators.set_int "update_ms" 3000).1 = .ok true
      ∧ (m.setup_validators.set_int "update_ms" 3000).1 = .error .Undefined
      ∧ m.setup_validators.int_store.rejects "update_ms" 86399900 = true
      ∧ ¬ (m.setup_validators.set_int "update_ms" 86399900).1 = .ok true
      ∧ (m.setup_validators.set_int "update_ms" 86399900).1 = .error .Undefined
      ∧ CfgManager.ONE_DAY_MILLIS = 86400000 := by
  have hiff : ∀ w : Int,
      (m.setup_validators.set_int "update_ms" w).1 = .ok true ↔ (100 ≤ w ∧ w ≤ 2000) := by
    intro w
    show (m.setup_validators.int_store.set "update_ms" w).1 = .ok true ↔ _
    rw [CfgStore.set_ok_iff]
    simp [CfgManager.setup_validators, CfgStore.add_validator, CfgMap.assign]
  have hrej : ∀ w : Int, ¬ (100 ≤ w ∧ w ≤ 2000) →
      m.setup_validators.int_store.rejects "update_ms" w = true := by
    intro w hw
    have hd : (decide (w ≥ 100) && decide (w ≤ 2000)) = false := by
      simpa using hw
    simp [CfgManager.setup_validators, CfgStore.add_validator, CfgStore.rejects,
      CfgMap.assign, hd]
  have hund : ∀ w : Int, ¬ (100 ≤ w ∧ w ≤ 2000) → ¬ (0 ≤ w ∧ w ≤ 26) →
      (m.setup_validators.set_int "update_ms" w).1 = .error .Undefined := by
    intro w hw hl
    show (m.setup_validators.int_store.set "update_ms" w).1 = _
    unfold CfgStore.set
    rw [hrej w hw, if_pos rfl, CfgStore.reject_int_outside _ _ hl]
  exact ⟨hiff v, hrej 3000 (by decide), fun h => absurd ((hiff 3000).1 h) (by decide),
    hund 3000 (by decide) (by decide), hrej 86399900 (by decide),
    fun h => absurd ((hiff 86399900).1 h) (by decide),
    hund 86399900 (by decide) (by decide), by decide⟩

theorem CfgStore.set_get_same {T : Type} [CfgValue T] (s : CfgStore T) (k : String) (v : T)
    (hv : ∀ p, s.validators k = some p → p v = true) : (s.set k v).2.get k = .ok v := by
  have h := CfgStore.rejects_eq_false s k v hv
  simp [CfgStore.set, h, CfgStore.get, CfgMap.assign_same]

/-- C19 (as stated, refuted): the catalogue lists `proc_filter` as a string key and does
not list `no_such_key`, yet `set<int>("proc_filter", 5)` and `set<bool>("no_such_key", true)`
succeed and the values are readable through `get<int>` and `get<bool>`. -/
theorem set_ignores_catalogue_counterexample :
    CfgManager.cfg_keys.lookup "proc_filter"
        = some (CfgItem.mk CfgType.CString (CfgVal.S ""))
      ∧ (CfgManager.new.setup_validators.set_int "proc_filter" 5).1 = .ok true
      ∧ (CfgManager.new.setup_validators.set_int "proc_filter" 5).2.get_int "proc_filter"
          = .ok 5
      ∧ CfgManager.cfg_keys.lookup "no_such_key" = none
      ∧ (CfgManager.new.setup_validators.set_bool "no_such_key" true).1 = .ok true
      ∧ (CfgManager.new.setup_validators.set_bool "no_such_key" true).2.get_bool
          "no_such_key" = .ok true :=
  ⟨by decide, rfl, rfl, by decide, rfl, rfl⟩

/-- C19 (amended): `set<T>` goes to the store of `T` and looks at that store's validators
only, not at the catalogue. It succeeds exactly when the store has no validator for the key
or the validator accepts the value; then `get<T>` returns the value and the stores of the
other two types are as before. When it returns the validation error the manager is as
before; `set<std::string>` and `set<bool>` return it whenever they do not succeed, and never
change the stores of the other types. So a key readable through `get<T>` need not be a
catalogue key of type `T`: on a fresh manager with the validators installed, every key
other than `update_ms` can be written and read as an `int`, every key as a `bool`, and every
key other than `graph_symbol` as a string, among them `proc_filter`, a string key of the catalogue, and
`no_such_key`, which the catalogue does not list. -/
theorem set_dispatches_on_type (m : CfgManager) (key : String) :
    (∀ v : Int,
        ((m.set_int key v).1 = .ok true
            ↔ ∀ p, m.int_store.validators key = some p → p v = true)
          ∧ ((m.set_int key v).1 = .ok true →
              (m.set_int key v).2.get_int key = .ok v
                ∧ (m.set_int key v).2.string_store = m.string_store
                ∧ (m.set_int key v).2.bool_store = m.bool_store)
          ∧ ((m.set_int key v).1 = .error .ValidationFailed → (m.set_int key v).2 = m))
      ∧ (∀ v : String,
        ((m.set_string key v).1 = .ok true
            ↔ ∀ p, m.string_store.validators key = some p → p v = true)
          ∧ ((m.set_string key v).1 = .ok true
              → (m.set_string key v).2.get_string key = .ok v)
          ∧ (¬ (m.set_string key v).1 = .ok true
              → m.set_string key v = (.error .ValidationFailed, m))
          ∧ (m.set_string key v).2.int_store = m.int_store
          ∧ (m.set_string key v).2.bool_store = m.bool_store)
      ∧ (∀ v : Bool,
        ((m.set_bool key v).1 = .ok true
            ↔ ∀ p, m.bool_store.validators key = some p → p v = true)
          ∧ ((m.set_bool key v).1 = .ok true → (m.set_bool key v).2.get_bool key = .ok v)
          ∧ (¬ (m.set_bool key v).1 = .ok true
              → m.set_bool key v = (.error .ValidationFailed, m))
          ∧ (m.set_bool key v).2.string_store = m.string_store
          ∧ (m.set_bool key v).2.int_store = m.int_store)
      ∧ (∀ v : Int, key ≠ "update_ms" →
          (CfgManager.new.setup_validators.set_int key v).1 = .ok true
            ∧ (CfgManager.new.setup_validators.set_int key v).2.get_int key = .ok v)
      ∧ (∀ v : Bool,
          (CfgManager.new.setup_validators.set_bool key v).1 = .ok true
            ∧ (CfgManager.new.setup_validators.set_bool key v).2.get_bool key = .ok v)
      ∧ (∀ v : String, key ≠ "graph_symbol" →
          (CfgManager.new.setup_validators.set_string key v).1 = .ok true
            ∧ (CfgManager.new.setup_validators.set_string key v).2.get_string key = .ok v)
      ∧ CfgManager.cfg_keys.lookup "proc_filter"
          = some (CfgItem.mk CfgType.CString (CfgVal.S ""))
      ∧ CfgManager.cfg_keys.lookup "no_such_key" = none := by
  have hi : ∀ v : Int, key ≠ "update_ms" →
      ∀ p, CfgManager.new.setup_validators.int_store.validators key = some p → p v = true := by
    intro v hk p hp
    simp [CfgManager.setup_validators, CfgStore.add_validator, CfgMap.assign, hk,
      CfgManager.new, CfgStore.new, CfgMap.empty] at hp
  have hb : ∀ v : Bool,
      ∀ p, CfgManager.new.setup_validators.bool_store.validators key = some p → p v = true := by
    intro v p hp
    simp [CfgManager.setup_validators, CfgManager.new, CfgStore.new, CfgMap.empty] at hp
  have hs : ∀ v : String, key ≠ "graph_symbol" →
      ∀ p, CfgManager.new.setup_validators.string_store.validators key = some p
        → p v = true := by
    intro v hk p hp
    simp [CfgManager.setup_validators, CfgStore.add_validator, CfgMap.assign, hk,
      CfgManager.new, CfgStore.new, CfgMap.empty] at hp
  refine ⟨fun v => ⟨CfgStore.set_ok_iff _ _ _, ?_, ?_⟩,
    fun v => ⟨CfgStore.set_ok_iff _ _ _, ?_, ?_, rfl, rfl⟩,
    fun v => ⟨CfgStore.set_ok_iff _ _ _, ?_, ?_, rfl, rfl⟩,
    fun v hk => ⟨(CfgStore.set_ok_iff _ _ _).2 (hi v hk),
      CfgStore.set_get_same _ key v (hi v hk)⟩,
    fun v => ⟨(CfgStore.set_ok_iff _ _ _).2 (hb v), CfgStore.set_get_same _ key v (hb v)⟩,
    fun v hk => ⟨(CfgStore.set_ok_iff _ _ _).2 (hs v hk),
      CfgStore.set_get_same _ key v (hs v hk)⟩,
    by decide, by decide⟩
  · intro h
    exact ⟨CfgStore.set_get_same m.int_store key v ((CfgStore.set_ok_iff _ _ _).1 h),
      rfl, rfl⟩
  · intro h
    have h2 : (m.int_store.set key v).2 = m.int_store := by
      unfold CfgStore.set
      cases hr : m.int_store.rejects key v
      · have h1 : (m.int_store.set key v).1 = .error .ValidationFailed := h
        simp [CfgStore.set, hr] at h1
      · simp only [if_true, CfgStore.reject_snd]
    show ({ m with int_store := (m.int_store.set key v).2 } : CfgManager) = m
    rw [h2]
  · intro h
    exact (CfgStore.set_get_same m.string_store key v ((CfgStore.set_ok_iff _ _ _).1 h))
  · intro h
    have h' := CfgStore.set_not_ok m.string_store key v h _ rfl
    simp [CfgManager.set_string, h']
  · intro h
    exact (CfgStore.set_get_same m.bool_store key v ((CfgStore.set_ok_iff _ _ _).1 h))
  · intro h
    have h' := CfgStore.set_not_ok m.bool_store key v h _ rfl
    simp [CfgManager.set_bool, h']

theorem CfgStore.get_ok_active {T : Type} (s : CfgStore T) (k : String) (v : T)
    (h : s.get k = .ok v) : s.active k = some v := by
  unfold CfgStore.get at h
  cases ha : s.active k with
  | none => simp [ha] at h
  | some w =>
    simp only [ha] at h
    cases h
    rfl

theorem CfgMap.assign_assign_self {V : Type} (m : CfgMap V) (k : String) (v w : V)
    (h : m k = some w) : (m.assign k v).assign k w = m := by
  funext k'
  by_cases hk : k' = k
  · subst hk
    simp [CfgMap.assign, h]
  · simp [CfgMap.assign, hk]

/-- The operations of the manager never install a validator in the bool store: a fresh
manager has none, and `setup_validators`, the three `set<T>`, `try_set<int>` and `flip`
leave the bool store's validators as they are. -/
theorem CfgManager.bool_validators_fixed (m : CfgManager) (key : String) :
    CfgManager.new.bool_store.validators key = none
      ∧ m.setup_validators.bool_store.validators = m.bool_store.validators
      ∧ (∀ v, (m.set_string key v).2.bool_store.validators = m.bool_store.validators)
      ∧ (∀ v, (m.set_int key v).2.bool_store.validators = m.bool_store.validators)
      ∧ (∀ v, (m.set_bool key v).2.bool_store.validators = m.bool_store.validators)
      ∧ (∀ raw, (m.try_set_int key raw).2.bool_store.validators = m.bool_store.validators)
      ∧ (∀ m1, m.flip key = some m1 →
          m1.bool_store.validators = m.bool_store.validators) := by
  refine ⟨rfl, rfl, fun _ => rfl, fun _ => rfl, ?_, ?_, ?_⟩
  · intro v
    simp only [CfgManager.set_bool, CfgStore.set]
    cases m.bool_store.rejects key v <;> rfl
  · intro raw
    simp only [CfgManager.try_set_int]
    cases CfgManager.try_parse_int raw <;> rfl
  · intro m1 h
    simp only [CfgManager.flip, CfgStore.set] at h
    cases hg : m.bool_store.get key with
    | error e => simp [hg] at h
    | ok b =>
      simp only [hg, Option.some.injEq] at h
      subst h
      cases m.bool_store.rejects key (!b) <;> rfl

/-- C20: on a manager whose bool store holds `k` with value `b` (and, as in every manager
built by these operations, has no validator for `k`), `flip(k)` makes `get<bool>(k)` return
the negation of `b` and leaves every other bool key, the string and int stores and the
staged map of the bool store unchanged; a second `flip(k)` gives back the manager it
started from. -/
theorem flip_negates (m : CfgManager) (k : String) (b : Bool)
    (hk : m.get_bool k = .ok b) (hv : m.bool_store.validators k = none) :
    ∃ m1, m.flip k = some m1
      ∧ m1.get_bool k = .ok (!b)
      ∧ (∀ k', k' ≠ k → m1.get_bool k' = m.get_bool k')
      ∧ m1.string_store = m.string_store
      ∧ m1.int_store = m.int_store
      ∧ m1.bool_store.temp = m.bool_store.temp
      ∧ m1.bool_store.validators = m.bool_store.validators
      ∧ m1.flip k = some m := by
  have ha := CfgStore.get_ok_active m.bool_store k b hk
  have hr : ∀ s : CfgStore Bool, s.validators = m.bool_store.validators →
      ∀ c, s.rejects k c = false := by
    intro s hs c
    simp [CfgStore.rejects, hs, hv]
  have hg : m.bool_store.get k = .ok b := hk
  refine ⟨{ m with bool_store := { m.bool_store with
      active := m.bool_store.active.assign k (!b) } }, ?_, ?_, ?_, rfl, rfl, rfl, rfl, ?_⟩
  · simp [CfgManager.flip, hg, CfgStore.set, hr m.bool_store rfl]
  · simp [CfgManager.get_bool, CfgStore.get, CfgMap.assign_same]
  · intro k' hk'
    simp [CfgManager.get_bool, CfgStore.get, CfgMap.assign_other _ _ _ _ hk']
  · have e : (m.bool_store.active.assign k (!b)).assign k b = m.bool_store.active :=
      CfgMap.assign_assign_self _ k (!b) b ha
    have hr' := hr { m.bool_store with active := m.bool_store.active.assign k (!b) } rfl b
    simp [CfgManager.flip, CfgStore.get, CfgMap.assign_same, CfgStore.set, hr', e]

/-- Witness of C20: `proc_tree` set to `false` and then flipped. -/
theorem flip_negates_witness :
    (CfgManager.new.setup_validators.set_bool "proc_tree" false).2.get_bool "proc_tree"
        = .ok false
      ∧ (CfgManager.new.setup_validators.set_bool "proc_tree" false).2.bool_store.validators
          "proc_tree" = none
      ∧ ∃ m1, (CfgManager.new.setup_validators.set_bool "proc_tree" false).2.flip "proc_tree"
          = some m1
        ∧ m1.get_bool "proc_tree" = .ok true
        ∧ m1.flip "proc_tree"
          = some (CfgManager.new.setup_validators.set_bool "proc_tree" false).2 := by
  have hk : (CfgManager.new.setup_validators.set_bool "proc_tree" false).2.get_bool
      "proc_tree" = .ok false := rfl
  have hv : (CfgManager.new.setup_validators.set_bool "proc_tree" false).2.bool_store.validators
      "proc_tree" = none := rfl
  obtain ⟨m1, h1, h2, _, _, _, _, _, h3⟩ := flip_negates _ "proc_tree" false hk hv
  exact ⟨hk, hv, m1, h1, h2, h3⟩

/-! ## Properties of value parsing, the poll timeout and the dispatcher -/

theorem tolower_eq_toLower (c : Char) : tolower c = c.toLower := rfl

theorem ascii_lower_eq_map_tolower (s : String) : ascii_lower s = s.toList.map tolower := by
  unfold ascii_lower
  apply List.map_congr_left
  intro c _
  exact (tolower_eq_toLower c).symm

/-- C21: `try_parse_bool(s)` returns `true` exactly when `s` in ASCII lower case is `true`,
`1` or `yes`, returns `false` exactly when it is `false`, `0` or `no`, and returns the parse
error for every other string, the empty string and strings with white space around the word
included. -/
theorem try_parse_bool_spec (s : String) :
    (CfgManager.try_parse_bool s = .ok true
        ↔ ascii_lower s ∈ ["true".toList, "1".toList, "yes".toList])
      ∧ (CfgManager.try_parse_bool s = .ok false
        ↔ ascii_lower s ∈ ["false".toList, "0".toList, "no".toList])
      ∧ (CfgManager.try_parse_bool s = .error (.ParseFailed s)
        ↔ ascii_lower s ∉ ["true".toList, "1".toList, "yes".toList, "false".toList,
            "0".toList, "no".toList])
      ∧ CfgManager.try_parse_bool "" = .error (.ParseFailed "")
      ∧ CfgManager.try_parse_bool " true" = .error (.ParseFailed " true")
      ∧ CfgManager.try_parse_bool "yes\n" = .error (.ParseFailed "yes\n")
      ∧ CfgManager.try_parse_bool "TrUe" = .ok true
      ∧ CfgManager.try_parse_bool "NO" = .ok false := by
  refine ⟨?_, ?_, ?_, rfl, rfl, rfl, rfl, rfl⟩
  all_goals
    rw [ascii_lower_eq_map_tolower]
    unfold CfgManager.try_parse_bool
    generalize s.toList.map tolower = L
    simp only [List.mem_cons, List.mem_singleton, List.not_mem_nil, or_false]
    split_ifs with h1 h2
    · rcases h1 with h | h | h <;> subst h <;> simp
    · rcases h2 with h | h | h <;> subst h <;> simp
    · simp only [not_or] at h1 h2
      obtain ⟨a1, a2, a3⟩ := h1
      obtain ⟨b1, b2, b3⟩ := h2
      simp only [a1, a2, a3, b1, b2, b3]
      simp

/-- C24: `Input::process` changes nothing, whatever the key: after a press of `+` with
`update_ms` equal to 2000 the refresh interval is still 2000, not 2100. -/
theorem process_no_effect (key : Option KeyEvent) (m : CfgManager) :
    Input.process key m = m
      ∧ (Input.process
            (some { type := .Char, ch := 0x2B, escape := .NONE, mouse := MouseEvent.zero })
            (CfgManager.new.setup_validators.set_int "update_ms" 2000).2).get_int "update_ms"
          = .ok 2000
      ∧ Input.get "+".toList
          = some { type := .Char, ch := 0x2B, escape := .NONE, mouse := MouseEvent.zero } := by
  refine ⟨?_, rfl, by decide⟩
  cases key <;> rfl

theorem to_int64_of_lt (n : Nat) (h : n < 2 ^ 63) : to_int64 n = (n : Int) := by
  have h1 : n % 2 ^ 64 = n := Nat.mod_eq_of_lt (by omega)
  unfold to_int64
  rw [h1, if_pos h]

/-- C28: for a timeout `t` other than `2^64 - 1` the `timespec` handed to `pselect` has
`tv_sec = t / 1000` and `tv_nsec = (t % 1000) * 1000000`, so `0 <= tv_nsec < 10^9` and
`tv_sec * 1000 + tv_nsec / 1000000 = t`; for `2^64 - 1` no timeout is handed over. -/
theorem poll_waitptr_spec (t : Nat) (ht : t < 2 ^ 64) (hne : t ≠ 2 ^ 64 - 1) :
    Input.poll_waitptr t
        = some { tv_sec := ((t / 1000 : Nat) : Int),
                 tv_nsec := ((t % 1000 * 1000000 : Nat) : Int) }
      ∧ (0 : Int) ≤ ((t % 1000 * 1000000 : Nat) : Int)
      ∧ ((t % 1000 * 1000000 : Nat) : Int) < 10 ^ 9
      ∧ ((t / 1000 : Nat) : Int) * 1000 + ((t % 1000 * 1000000 : Nat) : Int) / 1000000 = t
      ∧ Input.poll_waitptr (2 ^ 64 - 1) = none := by
  have h2 : (t % 1000 * 1000000) % 2 ^ 64 = t % 1000 * 1000000 :=
    Nat.mod_eq_of_lt (by omega)
  have e1 := to_int64_of_lt (t / 1000) (by omega)
  have e2 := to_int64_of_lt (t % 1000 * 1000000) (by omega)
  refine ⟨?_, by omega, by omega, by omega, by decide⟩
  unfold Input.poll_waitptr
  rw [if_pos hne, h2, e1, e2]

/-- Witness of C28 at a timeout of 1500 ms. -/
theorem poll_waitptr_spec_witness :
    1500 < 2 ^ 64 ∧ 1500 ≠ 2 ^ 64 - 1
      ∧ Input.poll_waitptr 1500 = some { tv_sec := 1, tv_nsec := 500000000 } :=
  ⟨by decide, by decide, (poll_waitptr_spec 1500 (by decide) (by decide)).1⟩

/-! ## Properties of `std::stoi` as embedded -/

theorem isspace_eq_false_of_isdigit {c : Char} (h : isdigit c = true) : isspace c = false := by
  simp only [isdigit, decide_eq_true_eq] at h
  have h1 : c ≠ ' ' := by rintro rfl; revert h; decide
  have h2 : c ≠ '\t' := by rintro rfl; revert h; decide
  have h3 : c ≠ '\n' := by rintro rfl; revert h; decide
  have h4 : c ≠ '\x0b' := by rintro rfl; revert h; decide
  have h5 : c ≠ '\x0c' := by rintro rfl; revert h; decide
  have h6 : c ≠ '\r' := by rintro rfl; revert h; decide
  simp [isspace, h1, h2, h3, h4, h5, h6]

theorem ne_sign_of_isdigit {c : Char} (h : isdigit c = true) : c ≠ '-' ∧ c ≠ '+' := by
  simp only [isdigit, decide_eq_true_eq] at h
  constructor <;> (rintro rfl; revert h; decide)

theorem takeWhile_eq_nil_of_head {p : Char → Bool} (l : Str)
    (h : ∀ c, l.head? = some c → p c = false) : l.takeWhile p = [] := by
  cases l with
  | nil => rfl
  | cons a t => simp [List.takeWhile_cons, h a rfl]

theorem dropWhile_eq_self_of_head {p : Char → Bool} (l : Str)
    (h : ∀ c, l.head? = some c → p c = false) : l.dropWhile p = l := by
  cases l with
  | nil => rfl
  | cons a t => simp [List.dropWhile_cons, h a rfl]

/-- What `stoi` returns on white space, a sign, digits and a rest that starts with no digit:
the rest is ignored; the value is range-checked. -/
theorem stoi_of_parts (ws sg ds tl : Str)
    (hws : ∀ c ∈ ws, isspace c = true)
    (hsg : sg = [] ∨ sg = ['+'] ∨ sg = ['-'])
    (hne : ds ≠ [])
    (hds : ∀ c ∈ ds, isdigit c = true)
    (htl : ∀ c, tl.head? = some c → isdigit c = false) :
    stoi (ws ++ sg ++ ds ++ tl)
      = (if (if sg = ['-'] then -(digitsVal ds : Int) else (digitsVal ds : Int)) < -(2 : Int) ^ 31
            ∨ (2 : Int) ^ 31 - 1 < (if sg = ['-'] then -(digitsVal ds : Int)
                else (digitsVal ds : Int))
          then .error .out_of_range
          else .ok ((if sg = ['-'] then -(digitsVal ds : Int) else (digitsVal ds : Int)),
            ws.length + sg.length + ds.length)) := by
  obtain ⟨d, ds', rfl⟩ := List.exists_cons_of_ne_nil hne
  have hd : isdigit d = true := hds d (List.mem_cons_self _ _)
  have hdsp : isspace d = false := isspace_eq_false_of_isdigit hd
  obtain ⟨hdm, hdp⟩ := ne_sign_of_isdigit hd
  have hhead : ∀ c, (sg ++ (d :: ds') ++ tl).head? = some c → isspace c = false := by
    intro c hc
    rcases hsg with rfl | rfl | rfl
    · simp at hc; subst hc; exact hdsp
    · simp at hc; subst hc; decide
    · simp at hc; subst hc; decide
  have hT : (ws ++ sg ++ (d :: ds') ++ tl).takeWhile isspace = ws := by
    rw [List.append_assoc, List.append_assoc, List.takeWhile_append_of_pos hws,
      ← List.append_assoc, takeWhile_eq_nil_of_head _ hhead, List.append_nil]
  have hD : (ws ++ sg ++ (d :: ds') ++ tl).dropWhile isspace = sg ++ (d :: ds') ++ tl := by
    rw [List.append_assoc, List.append_assoc, List.dropWhile_append_of_pos hws,
      ← List.append_assoc, dropWhile_eq_self_of_head _ hhead]
  have hG : ((d :: ds') ++ tl).takeWhile isdigit = d :: ds' := by
    rw [List.takeWhile_append_of_pos hds, takeWhile_eq_nil_of_head _ htl, List.append_nil]
  unfold stoi
  simp only [hT, hD]
  rcases hsg with rfl | rfl | rfl
  · simp only [List.nil_append, List.cons_append]
    have hS : ∀ t : Str, (match d :: t with
        | '-' :: t => (true, t)
        | '+' :: t => (false, t)
        | _ => (false, d :: t)) = (false, d :: t) := by
      intro t
      split
      · rename_i heq
        simp only [List.cons.injEq] at heq
        exact absurd heq.1 hdm
      · rename_i heq
        simp only [List.cons.injEq] at heq
        exact absurd heq.1 hdp
      · rfl
    simp only [hS]
    rw [← List.cons_append, hG]
    simp
  · simp only [List.cons_append, List.nil_append]
    rw [← List.cons_append, hG]
    simp
  · simp only [List.cons_append, List.nil_append]
    rw [← List.cons_append, hG]
    simp

theorem stoi_sign_split (rest : Str) :
    ∃ (sg : Str) (neg : Bool) (body : Str),
      stoi.match_1 (fun _ => Bool × Str) rest (fun t => (true, t)) (fun t => (false, t))
          (fun _ => (false, rest)) = (neg, body)
      ∧ (sg = [] ∨ sg = ['+'] ∨ sg = ['-'])
      ∧ rest = sg ++ body
      ∧ neg = decide (sg = ['-']) := by
  split
  · rename_i t
    exact ⟨['-'], true, t, rfl, Or.inr (Or.inr rfl), rfl, by decide⟩
  · rename_i t
    exact ⟨['+'], false, t, rfl, Or.inr (Or.inl rfl), rfl, by decide⟩
  · exact ⟨[], false, rest, rfl, Or.inl rfl, rfl, by decide⟩

theorem stoi_ok_core (str sg body : Str) (neg : Bool) (v : Int) (pos : Nat)
    (hsg : sg = [] ∨ sg = ['+'] ∨ sg = ['-'])
    (hrest : str.dropWhile isspace = sg ++ body)
    (hneg : neg = decide (sg = ['-']))
    (h : (if (body.takeWhile isdigit).isEmpty = true then
            (Except.error Exn.invalid_argument : Except Exn (Int × Nat))
          else if (if neg = true then -((digitsVal (body.takeWhile isdigit) : Nat) : Int)
                else ((digitsVal (body.takeWhile isdigit) : Nat) : Int)) < -(2 : Int) ^ 31
              ∨ (2 : Int) ^ 31 - 1 < (if neg = true then
                  -((digitsVal (body.takeWhile isdigit) : Nat) : Int)
                else ((digitsVal (body.takeWhile isdigit) : Nat) : Int)) then
            Except.error Exn.out_of_range
          else Except.ok ((if neg = true then
                  -((digitsVal (body.takeWhile isdigit) : Nat) : Int)
                else ((digitsVal (body.takeWhile isdigit) : Nat) : Int)),
              (str.takeWhile isspace).length + ((str.dropWhile isspace).length - body.length)
                + (body.takeWhile isdigit).length)) = .ok (v, pos)) :
    ∃ ws sg ds tl : Str, str = ws ++ sg ++ ds ++ tl
      ∧ (∀ c ∈ ws, isspace c = true)
      ∧ (sg = [] ∨ sg = ['+'] ∨ sg = ['-'])
      ∧ ds ≠ []
      ∧ (∀ c ∈ ds, isdigit c = true)
      ∧ (∀ c, tl.head? = some c → isdigit c = false)
      ∧ pos = ws.length + sg.length + ds.length
      ∧ v = (if sg = ['-'] then -(digitsVal ds : Int) else (digitsVal ds : Int))
      ∧ -(2 : Int) ^ 31 ≤ v ∧ v ≤ (2 : Int) ^ 31 - 1 := by
  generalize hval : (if neg = true then -((digitsVal (body.takeWhile isdigit) : Nat) : Int)
      else ((digitsVal (body.takeWhile isdigit) : Nat) : Int)) = val at h
  by_cases he : (body.takeWhile isdigit).isEmpty = true
  · rw [if_pos he] at h
    cases h
  rw [if_neg he] at h
  by_cases hr : val < -(2 : Int) ^ 31 ∨ (2 : Int) ^ 31 - 1 < val
  · rw [if_pos hr] at h
    cases h
  rw [if_neg hr] at h
  simp only [Except.ok.injEq, Prod.mk.injEq] at h
  obtain ⟨hv, hpos⟩ := h
  have hstr : str = str.takeWhile isspace ++ sg ++ body.takeWhile isdigit
      ++ body.dropWhile isdigit := by
    rw [List.append_assoc, List.append_assoc, List.takeWhile_append_dropWhile, ← hrest,
      List.takeWhile_append_dropWhile]
  have hlen : (str.dropWhile isspace).length - body.length = sg.length := by
    rw [hrest, List.length_append]
    omega
  refine ⟨str.takeWhile isspace, sg, body.takeWhile isdigit, body.dropWhile isdigit, hstr,
    fun c hc => (List.mem_takeWhile_imp hc), hsg, ?_, fun c hc => (List.mem_takeWhile_imp hc),
    ?_, ?_, ?_, ?_, ?_⟩
  · intro hnil
    rw [hnil] at he
    exact he rfl
  · intro c hc
    cases hb : body.dropWhile isdigit with
    | nil => rw [hb] at hc; cases hc
    | cons a t =>
      rw [hb] at hc
      simp only [List.head?_cons, Option.some.injEq] at hc
      subst hc
      have := List.head_dropWhile_not isdigit body (by rw [hb]; exact List.cons_ne_nil _ _)
      simpa [hb] using this
  · rw [← hpos, hlen]
  · rw [← hv, ← hval, hneg]
    by_cases hs : sg = ['-'] <;> simp [hs]
  · rw [← hv]
    simp only [not_or, not_lt] at hr
    exact hr.1
  · rw [← hv]
    simp only [not_or, not_lt] at hr
    exact hr.2

/-- What is known when `stoi` returns a value: the string is white space, a sign, digits and
a rest that starts with no digit, and the value and the count are those of the first three
parts. -/
theorem stoi_ok_parts (str : Str) (v : Int) (pos : Nat) (h : stoi str = .ok (v, pos)) :
    ∃ ws sg ds tl : Str, str = ws ++ sg ++ ds ++ tl
      ∧ (∀ c ∈ ws, isspace c = true)
      ∧ (sg = [] ∨ sg = ['+'] ∨ sg = ['-'])
      ∧ ds ≠ []
      ∧ (∀ c ∈ ds, isdigit c = true)
      ∧ (∀ c, tl.head? = some c → isdigit c = false)
      ∧ pos = ws.length + sg.length + ds.length
      ∧ v = (if sg = ['-'] then -(digitsVal ds : Int) else (digitsVal ds : Int))
      ∧ -(2 : Int) ^ 31 ≤ v ∧ v ≤ (2 : Int) ^ 31 - 1 := by
  obtain ⟨sg, neg, body, hm, hsg, hrest, hneg⟩ := stoi_sign_split (str.dropWhile isspace)
  unfold stoi at h
  dsimp only at h
  simp only [hm] at h
  exact stoi_ok_core str sg body neg v pos hsg hrest hneg h

/-! ## Properties of `try_parse_int` and `try_set` -/

/-- C22 (as stated, refuted): `try_parse_int(" 5")` returns 5 and `try_parse_int("\t\n+07")`
returns 7, although these strings do not start with a sign or a digit. -/
theorem try_parse_int_leading_space_counterexample :
    CfgManager.try_parse_int " 5" = .ok 5
      ∧ CfgManager.try_parse_int "\t\n+07" = .ok 7
      ∧ " 5".toList.head? = some ' '
      ∧ isdigit ' ' = false ∧ ' ' ≠ '+' ∧ ' ' ≠ '-' :=
  ⟨rfl, rfl, rfl, by decide, by decide, by decide⟩

theorem try_parse_int_ok_or_error (s : String) :
    (∃ n, CfgManager.try_parse_int s = .ok n)
      ∨ CfgManager.try_parse_int s = .error (.ParseFailed s) := by
  unfold CfgManager.try_parse_int
  cases stoi s.toList with
  | error e => exact Or.inr rfl
  | ok r =>
    obtain ⟨res, pos⟩ := r
    dsimp only
    split_ifs
    · exact Or.inr rfl
    · exact Or.inl ⟨res, rfl⟩

/-- C22 (amended): `try_parse_int(s)` returns `n` exactly when the whole of `s` is optional
leading white space, an optional sign and one or more decimal digits, denoting `n`, with `n`
in the range of a 32-bit `int`; on every other string it returns the parse error. -/
theorem try_parse_int_spec (s : String) (n : Int) :
    (CfgManager.try_parse_int s = .ok n
        ↔ denotes_int s.toList n ∧ -(2 : Int) ^ 31 ≤ n ∧ n ≤ (2 : Int) ^ 31 - 1)
      ∧ ((∃ k, CfgManager.try_parse_int s = .ok k)
          ∨ CfgManager.try_parse_int s = .error (.ParseFailed s))
      ∧ CfgManager.try_parse_int "" = .error (.ParseFailed "")
      ∧ CfgManager.try_parse_int "12 " = .error (.ParseFailed "12 ")
      ∧ CfgManager.try_parse_int "2147483648" = .error (.ParseFailed "2147483648")
      ∧ CfgManager.try_parse_int "-2147483648" = .ok (-2147483648) := by
  refine ⟨⟨?_, ?_⟩, try_parse_int_ok_or_error s, rfl, rfl, rfl, rfl⟩
  · intro h
    unfold CfgManager.try_parse_int at h
    cases hst : stoi s.toList with
    | error e =>
      rw [hst] at h
      cases h
    | ok r =>
      obtain ⟨res, pos⟩ := r
      rw [hst] at h
      dsimp only at h
      split_ifs at h with hp
      simp only [Except.ok.injEq] at h
      subst h
      obtain ⟨ws, sg, ds, tl, hstr, hws, hsg, hne, hds, _, hpos, hv, hlo, hhi⟩ :=
        stoi_ok_parts s.toList res pos hst
      have hlen : s.length = (ws ++ sg ++ ds ++ tl).length := by
        rw [← hstr]
        rfl
      have htl : tl = [] := by
        apply List.eq_nil_of_length_eq_zero
        simp only [List.length_append] at hlen
        simp only [ne_eq, Decidable.not_not] at hp
        omega
      rw [htl, List.append_nil] at hstr
      exact ⟨⟨ws, sg, ds, hstr, hws, hsg, hne, hds, hv⟩, hlo, hhi⟩
  · rintro ⟨⟨ws, sg, ds, hstr, hws, hsg, hne, hds, hv⟩, hlo, hhi⟩
    have hst := stoi_of_parts ws sg ds [] hws hsg hne hds (by simp)
    rw [List.append_nil, ← hstr, ← hv] at hst
    have hr : ¬ (n < -(2 : Int) ^ 31 ∨ (2 : Int) ^ 31 - 1 < n) := by
      simp only [not_or, not_lt]
      exact ⟨hlo, hhi⟩
    rw [if_neg hr] at hst
    have hlen : s.length = ws.length + sg.length + ds.length := by
      show s.toList.length = _
      rw [hstr]
      simp only [List.length_append]
    unfold CfgManager.try_parse_int
    rw [hst]
    simp only [hlen, ne_eq, not_true_eq_false, if_false]

theorem CfgManager.after_some (r : DynResult Bool × CfgManager) (m1 : CfgManager)
    (h : CfgManager.after r = some m1) : m1 = r.2 := by
  unfold CfgManager.after at h
  split at h
  · cases h
  · cases h
    rfl

theorem CfgManager.set_int_validators (m : CfgManager) (key : String) (v : Int) :
    (m.set_int key v).2.int_store.validators = m.int_store.validators :=
  CfgStore.set_validators m.int_store key v

/-- The calls of a manager install no validator in the int store but the one of
`setup_validators`: when every validator of the int store is the one for `update_ms`
before a call, it is so after the call. -/
theorem CfgManager.call_int_validators (m m1 : CfgManager) (c : CfgManager.Call)
    (h : m.call c = some m1)
    (hm : ∀ k p, m.int_store.validators k = some p →
      k = "update_ms" ∧ p = fun val => decide (val ≥ 100) && decide (val ≤ 2000)) :
    ∀ k p, m1.int_store.validators k = some p →
      k = "update_ms" ∧ p = fun val => decide (val ≥ 100) && decide (val ≤ 2000) := by
  cases c with
  | setup_validators =>
    simp only [CfgManager.call, Option.some.injEq] at h
    subst h
    intro k p hp
    by_cases hk : k = "update_ms"
    · subst hk
      simp only [CfgManager.setup_validators, CfgStore.add_validator, CfgMap.assign,
        if_true, Option.some.injEq] at hp
      exact ⟨rfl, hp.symm⟩
    · simp only [CfgManager.setup_validators, CfgStore.add_validator, CfgMap.assign, hk,
        if_false] at hp
      exact hm k p hp
  | set_string key val =>
    have h1 := CfgManager.after_some _ _ h
    subst h1
    exact hm
  | set_bool key val =>
    have h1 := CfgManager.after_some _ _ h
    subst h1
    exact hm
  | set_int key val =>
    have h1 := CfgManager.after_some _ _ h
    subst h1
    rw [CfgManager.set_int_validators]
    exact hm
  | try_set_string key raw =>
    have h1 := CfgManager.after_some _ _ h
    subst h1
    exact hm
  | try_set_bool key raw =>
    have h1 := CfgManager.after_some _ _ h
    subst h1
    unfold CfgManager.try_set_bool
    cases CfgManager.try_parse_bool raw <;> exact hm
  | try_set_int key raw =>
    have h1 := CfgManager.after_some _ _ h
    subst h1
    unfold CfgManager.try_set_int
    cases CfgManager.try_parse_int raw with
    | error e => exact hm
    | ok n =>
      dsimp only
      rw [CfgManager.set_int_validators]
      exact hm
  | flip key =>
    simp only [CfgManager.call, CfgManager.flip] at h
    cases hg : m.bool_store.get key with
    | error e => simp [hg] at h
    | ok b =>
      simp only [hg, Option.some.injEq] at h
      subst h
      exact hm

theorem CfgManager.calls_int_validators (cs : List CfgManager.Call) :
    ∀ m0 m : CfgManager, m0.calls cs = some m →
      (∀ k p, m0.int_store.validators k = some p →
        k = "update_ms" ∧ p = fun val => decide (val ≥ 100) && decide (val ≤ 2000)) →
      ∀ k p, m.int_store.validators k = some p →
        k = "update_ms" ∧ p = fun val => decide (val ≥ 100) && decide (val ≤ 2000) := by
  induction cs with
  | nil =>
    intro m0 m h hm
    simp only [CfgManager.calls, Option.some.injEq] at h
    subst h
    exact hm
  | cons c rest ih =>
    intro m0 m h hm
    simp only [CfgManager.calls] at h
    cases hc : m0.call c with
    | none => simp [hc] at h
    | some m1 =>
      simp only [hc] at h
      exact ih m1 m h (CfgManager.call_int_validators m0 m1 c hc hm)

/-- Every validator of the int store of a manager built from a fresh one by calls is the
validator of `update_ms`. -/
theorem CfgManager.built_int_validators (cs : List CfgManager.Call) (m : CfgManager)
    (h : CfgManager.new.calls cs = some m) (k : String) (p : Int → Bool)
    (hp : m.int_store.validators k = some p) :
    k = "update_ms" ∧ p = fun val => decide (val ≥ 100) && decide (val ≤ 2000) := by
  refine CfgManager.calls_int_validators cs CfgManager.new m h ?_ k p hp
  intro k p hp
  simp [CfgManager.new, CfgStore.new, CfgMap.empty] at hp

/-- C23: on every manager built from a fresh one by calls of `setup_validators`, `set<T>`,
`try_set<T>` and `flip`, a raw string that fails the parse for the requested type, or whose
parsed value the validator of the key rejects, makes `try_set` return an error and leaves
the manager as it was. The int store of such a manager has no validator but the one of
`update_ms`. -/
theorem try_set_failure (cs : List CfgManager.Call) (m : CfgManager) (key raw : String)
    (hm : CfgManager.new.calls cs = some m) :
    (∀ p, m.string_store.validators key = some p → p raw = false →
        m.try_set_string key raw = (.error .ValidationFailed, m))
      ∧ (∀ e, CfgManager.try_parse_bool raw = .error e →
        m.try_set_bool key raw = (.error e, m))
      ∧ (∀ b p, CfgManager.try_parse_bool raw = .ok b → m.bool_store.validators key = some p →
        p b = false → m.try_set_bool key raw = (.error .ValidationFailed, m))
      ∧ (∀ e, CfgManager.try_parse_int raw = .error e →
        m.try_set_int key raw = (.error e, m))
      ∧ (∀ n p, CfgManager.try_parse_int raw = .ok n → m.int_store.validators key = some p →
        p n = false → m.try_set_int key raw = (.error .ValidationFailed, m))
      ∧ (∀ p, m.int_store.validators key = some p →
        key = "update_ms" ∧ p = fun val => decide (val ≥ 100) && decide (val ≤ 2000)) := by
  refine ⟨?_, ?_, ?_, ?_, ?_, CfgManager.built_int_validators cs m hm key⟩
  · intro p hp hr
    have h := CfgStore.rejects_eq_true m.string_store key p raw hp hr
    simp [CfgManager.try_set_string, CfgManager.set_string, CfgStore.set, h,
      CfgStore.reject_string]
  · intro e he
    simp [CfgManager.try_set_bool, he]
  · intro b p hb hp hr
    have h := CfgStore.rejects_eq_true m.bool_store key p b hp hr
    simp [CfgManager.try_set_bool, hb, CfgManager.set_bool, CfgStore.set, h,
      CfgStore.reject_bool]
  · intro e he
    simp [CfgManager.try_set_int, he]
  · intro n p hn hp _
    have hq := (CfgManager.built_int_validators cs m hm key p hp).2
    subst hq
    have h01 : 0 ≤ CfgManager.bool_to_int (CfgManager.int_to_bool n)
        ∧ CfgManager.bool_to_int (CfgManager.int_to_bool n) ≤ 26 := by
      unfold CfgManager.bool_to_int
      split_ifs <;> decide
    have h : m.int_store.rejects key
        (CfgManager.bool_to_int (CfgManager.int_to_bool n)) = true := by
      apply CfgStore.rejects_eq_true m.int_store key _ _ hp
      unfold CfgManager.bool_to_int
      split_ifs <;> decide
    simp [CfgManager.try_set_int, hn, CfgManager.set_int, CfgStore.set, h,
      CfgStore.reject_int_in_literal _ _ h01.1 h01.2]

/-- Witness of C23: the raw values `50` and `fast` for `update_ms` on the manager built by
`setup_validators` and `set<int>("update_ms", 500)`. -/
theorem try_set_failure_witness :
    CfgManager.new.calls [CfgManager.Call.setup_validators,
        CfgManager.Call.set_int "update_ms" 500]
        = some (CfgManager.new.setup_validators.set_int "update_ms" 500).2
      ∧ CfgManager.try_parse_int "50" = .ok 50
      ∧ (CfgManager.new.setup_validators.set_int "update_ms" 500).2.try_set_int
          "update_ms" "50"
          = (.error .ValidationFailed,
              (CfgManager.new.setup_validators.set_int "update_ms" 500).2)
      ∧ (CfgManager.new.setup_validators.set_int "update_ms" 500).2.try_set_int
          "update_ms" "fast"
          = (.error (.ParseFailed "fast"),
              (CfgManager.new.setup_validators.set_int "update_ms" 500).2)
      ∧ (CfgManager.new.setup_validators.set_int "update_ms" 500).2.get_int "update_ms"
          = .ok 500 := by
  have hm : CfgManager.new.calls [CfgManager.Call.setup_validators,
      CfgManager.Call.set_int "update_ms" 500]
      = some (CfgManager.new.setup_validators.set_int "update_ms" 500).2 := rfl
  have h := try_set_failure _ _ "update_ms" "50" hm
  have h' := try_set_failure _ _ "update_ms" "fast" hm
  exact ⟨hm, rfl, h.2.2.2.2.1 50 _ rfl rfl (by decide), h'.2.2.2.1 _ rfl, rfl⟩

/-! ## Further properties of the mouse parser and of `get` -/

theorem land_mask_bounds (z : Int) (k : Nat) :
    0 ≤ Int.land z ((2 ^ k - 1 : Nat) : Int) ∧ Int.land z ((2 ^ k - 1 : Nat) : Int) < 2 ^ k := by
  have hpos : 0 < 2 ^ k := Nat.two_pow_pos k
  cases z with
  | ofNat m =>
    show 0 ≤ ((m &&& (2 ^ k - 1) : Nat) : Int) ∧ ((m &&& (2 ^ k - 1) : Nat) : Int) < 2 ^ k
    have h : m &&& (2 ^ k - 1) < 2 ^ k := by
      rw [Nat.and_pow_two_sub_one_eq_mod]
      exact Nat.mod_lt _ hpos
    exact ⟨Int.ofNat_nonneg _, by exact_mod_cast h⟩
  | negSucc m =>
    show 0 ≤ ((Nat.ldiff (2 ^ k - 1) m : Nat) : Int)
      ∧ ((Nat.ldiff (2 ^ k - 1) m : Nat) : Int) < 2 ^ k
    have h : Nat.ldiff (2 ^ k - 1) m < 2 ^ k := by
      apply Nat.lt_pow_two_of_testBit
      intro i hi
      rw [Nat.testBit_ldiff]
      have : (2 ^ k - 1).testBit i = false :=
        Nat.testBit_lt_two_pow (lt_of_lt_of_le (by omega) (Nat.pow_le_pow_right (by decide) hi))
      simp [this]
    exact ⟨Int.ofNat_nonneg _, by exact_mod_cast h⟩

theorem parse_mouse_event_ok_fields (str : Str) (ev : MouseEvent)
    (h : Input.parse_mouse_event str = .ok ev) :
    ∃ flags : Int, ev.button = Int.land flags 0x3
      ∧ ev.modifiers = Int.land (Int.shiftRight flags 2) 0x7 := by
  unfold Input.parse_mouse_event at h
  simp only [] at h
  split_ifs at h with hc
  revert h
  simp only [bind, Except.bind, pure, Except.pure]
  cases substr str 2 (size_sub (find str ';' 0) 2) with
  | error e => simp
  | ok fs =>
    dsimp only
    cases stoi fs with
    | error e => simp
    | ok flags =>
      dsimp only
      cases substr str (size_add (find str ';' 0) 1)
          (size_sub (size_sub (find str ';' (size_add (find str ';' 0) 1)) (find str ';' 0)) 1) with
      | error e => simp
      | ok xs =>
        dsimp only
        cases stoi xs with
        | error e => simp
        | ok x =>
          dsimp only
          cases substr str (size_add (find str ';' (size_add (find str ';' 0) 1)) 1)
              (size_sub (size_sub (find_first_of str "Mm".toList)
                (find str ';' (size_add (find str ';' 0) 1))) 1) with
          | error e => simp
          | ok ys =>
            dsimp only
            cases stoi ys with
            | error e => simp
            | ok y =>
              dsimp only
              intro h
              simp only [Except.ok.injEq] at h
              subst h
              exact ⟨flags.1, rfl, rfl⟩

/-- C27: whenever `parse_mouse_event` succeeds, whatever integer the flags field holds, the
event has `0 <= button <= 3` and `0 <= modifiers <= 7`. -/
theorem parse_mouse_event_button_modifiers_range (str : Str) (ev : MouseEvent)
    (h : Input.parse_mouse_event str = .ok ev) :
    0 ≤ ev.button ∧ ev.button ≤ 3 ∧ 0 ≤ ev.modifiers ∧ ev.modifiers ≤ 7 := by
  obtain ⟨flags, hb, hm⟩ := parse_mouse_event_ok_fields str ev h
  have b := land_mask_bounds flags 2
  have m := land_mask_bounds (Int.shiftRight flags 2) 3
  have e3 : ((2 ^ 2 - 1 : Nat) : Int) = 0x3 := by norm_num
  have e7 : ((2 ^ 3 - 1 : Nat) : Int) = 0x7 := by norm_num
  rw [e3] at b
  rw [e7] at m
  rw [hb, hm]
  omega

/-- Witness of C27: a report whose flags field is `-1`. -/
theorem parse_mouse_event_button_modifiers_range_witness :
    Input.parse_mouse_event "[<-1;10;5M".toList
        = .ok { x := 10, y := 5, pressed := true, button := Int.land (-1) 0x3,
                modifiers := Int.land (Int.shiftRight (-1) 2) 0x7 }
      ∧ 0 ≤ Int.land (-1) 0x3 ∧ Int.land (-1) 0x3 ≤ 3
      ∧ 0 ≤ Int.land (Int.shiftRight (-1) 2) 0x7
      ∧ Int.land (Int.shiftRight (-1) 2) 0x7 ≤ 7 :=
  ⟨rfl, parse_mouse_event_button_modifiers_range "[<-1;10;5M".toList
    { x := 10, y := 5, pressed := true, button := Int.land (-1) 0x3,
      modifiers := Int.land (Int.shiftRight (-1) 2) 0x7 } rfl⟩

/-! ## The mouse parser on well-formed and on malformed reports -/

theorem digitChar_isdigit (k : Nat) (h : k < 10) :
    isdigit (Nat.digitChar k) = true ∧ (Nat.digitChar k).toNat - '0'.toNat = k := by
  interval_cases k <;> exact ⟨by decide, by decide⟩

theorem digitsVal_append_singleton (pre : Str) (d : Char) :
    digitsVal (pre ++ [d]) = digitsVal pre * 10 + (d.toNat - '0'.toNat) := by
  simp [digitsVal, List.foldl_append]

theorem toDigitsCore_spec (fuel : Nat) :
    ∀ (n : Nat) (ds : Str), n < fuel →
      ∃ pre : Str, Nat.toDigitsCore 10 fuel n ds = pre ++ ds ∧ pre ≠ []
        ∧ (∀ c ∈ pre, isdigit c = true) ∧ digitsVal pre = n ∧ pre.length ≤ fuel := by
  induction fuel with
  | zero => intro n ds h; omega
  | succ fuel ih =>
    intro n ds h
    have hd := digitChar_isdigit (n % 10) (Nat.mod_lt _ (by decide))
    unfold Nat.toDigitsCore
    dsimp only
    by_cases h0 : n / 10 = 0
    · rw [if_pos h0]
      refine ⟨[Nat.digitChar (n % 10)], rfl, by simp, ?_, ?_, by simp⟩
      · intro c hc
        simp only [List.mem_singleton] at hc
        subst hc
        exact hd.1
      · have : digitsVal [Nat.digitChar (n % 10)] = (Nat.digitChar (n % 10)).toNat - '0'.toNat := by
          simp [digitsVal]
        rw [this, hd.2]
        omega
    · rw [if_neg h0]
      obtain ⟨pre, hpre, _, hall, hval, hlen⟩ :=
        ih (n / 10) (Nat.digitChar (n % 10) :: ds) (by omega)
      refine ⟨pre ++ [Nat.digitChar (n % 10)], ?_, by simp, ?_, ?_, ?_⟩
      · rw [hpre]
        simp
      · intro c hc
        rcases List.mem_append.1 hc with hc | hc
        · exact hall c hc
        · simp only [List.mem_singleton] at hc
          subst hc
          exact hd.1
      · rw [digitsVal_append_singleton, hval, hd.2]
        omega
      · simp only [List.length_append, List.length_singleton]
        omega

/-- The decimal representation is a non-empty run of digits with the value of the number. -/
theorem dec_spec (n : Nat) :
    dec n ≠ [] ∧ (∀ c ∈ dec n, isdigit c = true) ∧ digitsVal (dec n) = n
      ∧ (dec n).length ≤ n + 1 := by
  obtain ⟨pre, hpre, hne, hall, hval, hlen⟩ := toDigitsCore_spec (n + 1) n [] (by omega)
  have : dec n = pre := by
    unfold dec Nat.toDigits
    rw [hpre, List.append_nil]
  rw [this]
  exact ⟨hne, hall, hval, hlen⟩

theorem find_skip (skip pre post : Str) (c : Char) (hpre : ∀ d ∈ pre, (d == c) = false) :
    find (skip ++ pre ++ c :: post) c skip.length = skip.length + pre.length := by
  unfold find
  have hdrop : (skip ++ pre ++ c :: post).drop skip.length = pre ++ c :: post := by
    rw [List.append_assoc, List.drop_left]
  have hidx : (pre ++ c :: post).findIdx (fun d => d == c) = pre.length := by
    rw [List.findIdx_append, List.findIdx_eq_length_of_false hpre]
    simp [List.findIdx_cons]
  simp only [hdrop, hidx, List.length_append, List.length_cons]
  rw [if_pos (by omega)]

theorem find_first_of_at (pre post set : Str) (t : Char)
    (hpre : ∀ d ∈ pre, set.contains d = false) (ht : set.contains t = true) :
    find_first_of (pre ++ t :: post) set = pre.length := by
  unfold find_first_of
  have hidx : (pre ++ t :: post).findIdx (fun d => set.contains d) = pre.length := by
    rw [List.findIdx_append, List.findIdx_eq_length_of_false hpre]
    have ht' : t ∈ set := by simpa using ht
    simp [List.findIdx_cons, ht']
  simp only [hidx, List.length_append, List.length_cons]
  rw [if_pos (by omega)]

theorem substr_skip (skip mid post : Str) :
    substr (skip ++ mid ++ post) skip.length mid.length = .ok mid := by
  unfold substr
  have h : ¬ skip.length > (skip ++ mid ++ post).length := by
    simp only [List.length_append]
    omega
  rw [if_neg h, List.append_assoc, List.drop_left, List.take_left]

theorem size_add_eq (a b : Nat) (h : a + b < 2 ^ 64) : size_add a b = a + b := by
  unfold size_add
  exact Nat.mod_eq_of_lt h

theorem size_sub_eq (a b : Nat) (hb : b ≤ a) (ha : a < 2 ^ 64) : size_sub a b = a - b := by
  unfold size_sub
  have h1 : b % 2 ^ 64 = b := Nat.mod_eq_of_lt (by omega)
  rw [h1]
  omega

theorem isdigit_ne_semicolon {c : Char} (h : isdigit c = true) :
    (c == ';') = false ∧ "Mm".toList.contains c = false := by
  simp only [isdigit, decide_eq_true_eq] at h
  have h1 : c ≠ ';' := by rintro rfl; revert h; decide
  have h2 : c ≠ 'M' := by rintro rfl; revert h; decide
  have h3 : c ≠ 'm' := by rintro rfl; revert h; decide
  simp [h1, h2, h3]

theorem stoi_digits (ds : Str) (hne : ds ≠ []) (hds : ∀ c ∈ ds, isdigit c = true)
    (hv : (digitsVal ds : Int) ≤ (2 : Int) ^ 31 - 1) :
    stoi ds = .ok ((digitsVal ds : Int), ds.length) := by
  have h := stoi_of_parts [] [] ds [] (by simp) (Or.inl rfl) hne hds (by simp)
  simp only [List.nil_append, List.append_nil, List.length_nil, Nat.zero_add] at h
  rw [h]
  have hr : ¬ ((digitsVal ds : Int) < -(2 : Int) ^ 31 ∨ (2 : Int) ^ 31 - 1 < (digitsVal ds : Int)) := by
    have : (0 : Int) ≤ (digitsVal ds : Int) := Int.ofNat_nonneg _
    omega
  simp only [List.nil_eq, reduceCtorEq, if_false]
  rw [if_neg hr]

/-- The mouse parser on `[<` followed by three runs of digits, two `;` and a terminator. -/
theorem parse_mouse_event_of_fields (F X Y : Str) (t : Char)
    (hF : F ≠ []) (hFd : ∀ c ∈ F, isdigit c = true)
    (hFv : (digitsVal F : Int) ≤ (2 : Int) ^ 31 - 1)
    (hX : X ≠ []) (hXd : ∀ c ∈ X, isdigit c = true)
    (hXv : (digitsVal X : Int) ≤ (2 : Int) ^ 31 - 1)
    (hY : Y ≠ []) (hYd : ∀ c ∈ Y, isdigit c = true)
    (hYv : (digitsVal Y : Int) ≤ (2 : Int) ^ 31 - 1)
    (hlen : F.length + X.length + Y.length + 8 < 2 ^ 64)
    (ht : t = 'M' ∨ t = 'm') :
    Input.parse_mouse_event ('[' :: '<' :: (F ++ ';' :: (X ++ ';' :: (Y ++ [t]))))
      = .ok { x := (digitsVal X : Int), y := (digitsVal Y : Int), pressed := t == 'M',
              button := Int.land (digitsVal F : Int) 0x3,
              modifiers := Int.land (Int.shiftRight (digitsVal F : Int) 2) 0x7 } := by
  have hsemiF : ∀ d ∈ '[' :: '<' :: F, (d == ';') = false := by
    intro d hd
    rcases List.mem_cons.1 hd with rfl | hd
    · decide
    rcases List.mem_cons.1 hd with rfl | hd
    · decide
    exact (isdigit_ne_semicolon (hFd d hd)).1
  have hsemiX : ∀ d ∈ X, (d == ';') = false := fun d hd => (isdigit_ne_semicolon (hXd d hd)).1
  have hMm : ∀ d ∈ '[' :: '<' :: (F ++ ';' :: (X ++ ';' :: Y)),
      "Mm".toList.contains d = false := by
    intro d hd
    rcases List.mem_cons.1 hd with rfl | hd
    · decide
    rcases List.mem_cons.1 hd with rfl | hd
    · decide
    rcases List.mem_append.1 hd with hd | hd
    · exact (isdigit_ne_semicolon (hFd d hd)).2
    rcases List.mem_cons.1 hd with rfl | hd
    · decide
    rcases List.mem_append.1 hd with hd | hd
    · exact (isdigit_ne_semicolon (hXd d hd)).2
    rcases List.mem_cons.1 hd with rfl | hd
    · decide
    exact (isdigit_ne_semicolon (hYd d hd)).2
  have htM : "Mm".toList.contains t = true := by
    rcases ht with rfl | rfl <;> decide
  -- the three positions
  have hs1 : find ('[' :: '<' :: (F ++ ';' :: (X ++ ';' :: (Y ++ [t])))) ';' 0
      = F.length + 2 := by
    have h := find_skip [] ('[' :: '<' :: F) (X ++ ';' :: (Y ++ [t])) ';' hsemiF
    simpa using h
  have hs2 : find ('[' :: '<' :: (F ++ ';' :: (X ++ ';' :: (Y ++ [t])))) ';' (F.length + 3)
      = F.length + 3 + X.length := by
    have h := find_skip ('[' :: '<' :: (F ++ [';'])) X (Y ++ [t]) ';' hsemiX
    simpa [List.append_assoc] using h
  have hst : find_first_of ('[' :: '<' :: (F ++ ';' :: (X ++ ';' :: (Y ++ [t])))) "Mm".toList
      = F.length + X.length + Y.length + 4 := by
    have h := find_first_of_at ('[' :: '<' :: (F ++ ';' :: (X ++ ';' :: Y))) [] "Mm".toList t
      hMm htM
    have e : '[' :: '<' :: (F ++ ';' :: (X ++ ';' :: Y)) ++ [t]
        = '[' :: '<' :: (F ++ ';' :: (X ++ ';' :: (Y ++ [t]))) := by
      simp [List.append_assoc]
    rw [e] at h
    rw [h]
    simp only [List.length_cons, List.length_append]
    omega
  -- the three fields
  have hf1 : substr ('[' :: '<' :: (F ++ ';' :: (X ++ ';' :: (Y ++ [t])))) 2 F.length
      = .ok F := by
    have h := substr_skip ['[', '<'] F (';' :: (X ++ ';' :: (Y ++ [t])))
    simpa [List.append_assoc] using h
  have hf2 : substr ('[' :: '<' :: (F ++ ';' :: (X ++ ';' :: (Y ++ [t])))) (F.length + 3)
      X.length = .ok X := by
    have h := substr_skip ('[' :: '<' :: (F ++ [';'])) X (';' :: (Y ++ [t]))
    simpa [List.append_assoc] using h
  have hf3 : substr ('[' :: '<' :: (F ++ ';' :: (X ++ ';' :: (Y ++ [t]))))
      (F.length + 3 + X.length + 1) Y.length = .ok Y := by
    have h := substr_skip ('[' :: '<' :: (F ++ ';' :: (X ++ [';']))) Y [t]
    have e : ('[' :: '<' :: (F ++ ';' :: (X ++ [';']))).length = F.length + 3 + X.length + 1 := by
      simp only [List.length_cons, List.length_append, List.length_nil]
      omega
    rw [e] at h
    simpa [List.append_assoc] using h
  have hget : ('[' :: '<' :: (F ++ ';' :: (X ++ ';' :: (Y ++ [t]))))[
      F.length + X.length + Y.length + 4]? = some t := by
    have e : '[' :: '<' :: (F ++ ';' :: (X ++ ';' :: (Y ++ [t])))
        = ('[' :: '<' :: (F ++ ';' :: (X ++ ';' :: Y))) ++ [t] := by
      simp [List.append_assoc]
    have l : ('[' :: '<' :: (F ++ ';' :: (X ++ ';' :: Y))).length
        = F.length + X.length + Y.length + 4 := by
      simp only [List.length_cons, List.length_append]
      omega
    rw [e, ← l, List.getElem?_concat_length]
  -- size_t arithmetic
  have a1 : size_add (F.length + 2) 1 = F.length + 3 :=
    size_add_eq (F.length + 2) 1 (by omega)
  have a2 : size_sub (F.length + 2) 2 = F.length := by
    rw [size_sub_eq (F.length + 2) 2 (by omega) (by omega)]
    omega
  have a3 : size_sub (size_sub (F.length + 3 + X.length) (F.length + 2)) 1 = X.length := by
    rw [size_sub_eq (F.length + 3 + X.length) (F.length + 2) (by omega) (by omega),
      size_sub_eq (F.length + 3 + X.length - (F.length + 2)) 1 (by omega) (by omega)]
    omega
  have a4 : size_add (F.length + 3 + X.length) 1 = F.length + 3 + X.length + 1 :=
    size_add_eq (F.length + 3 + X.length) 1 (by omega)
  have a5 : size_sub (size_sub (F.length + X.length + Y.length + 4) (F.length + 3 + X.length)) 1
      = Y.length := by
    rw [size_sub_eq (F.length + X.length + Y.length + 4) (F.length + 3 + X.length)
        (by omega) (by omega),
      size_sub_eq (F.length + X.length + Y.length + 4 - (F.length + 3 + X.length)) 1
        (by omega) (by omega)]
    omega
  have n1 : ¬ (F.length + 2 = npos ∨ F.length + 3 + X.length = npos
      ∨ F.length + X.length + Y.length + 4 = npos) := by
    unfold npos
    omega
  have e1 := stoi_digits F hF hFd hFv
  have e2 := stoi_digits X hX hXd hXv
  have e3 := stoi_digits Y hY hYd hYv
  unfold Input.parse_mouse_event
  dsimp only
  rw [hs1, a1, hs2, hst, if_neg n1, a2, a3, a4, a5, hf1, hf2, hf3, hget]
  simp only [bind, Except.bind, e1, e2, e3, pure, Except.pure]
  rcases ht with rfl | rfl <;> rfl

/-- C25: on the string that `get` hands over, `[<` followed by the decimal flags `f`, `;`,
the decimal `x`, `;`, the decimal `y` and the terminator `M` or `m`, with `f`, `x`, `y`
non-negative and in the range of `int`, `parse_mouse_event` returns the event with these
`x` and `y`, `pressed = (t == 'M')`, `button = f & 3` and `modifiers = (f >> 2) & 7`. -/
theorem parse_mouse_event_report (f x y : Nat) (t : Char)
    (hf : f < 2 ^ 31) (hx : x < 2 ^ 31) (hy : y < 2 ^ 31) (ht : t = 'M' ∨ t = 'm') :
    Input.parse_mouse_event ("[<".toList ++ dec f ++ ';' :: dec x ++ ';' :: dec y ++ [t])
      = .ok { x := (x : Int), y := (y : Int), pressed := t == 'M',
              button := ((f &&& 3 : Nat) : Int),
              modifiers := (((f >>> 2) &&& 7 : Nat) : Int) } := by
  obtain ⟨hF, hFd, hFv, hFl⟩ := dec_spec f
  obtain ⟨hX, hXd, hXv, hXl⟩ := dec_spec x
  obtain ⟨hY, hYd, hYv, hYl⟩ := dec_spec y
  have e : "[<".toList ++ dec f ++ ';' :: dec x ++ ';' :: dec y ++ [t]
      = '[' :: '<' :: (dec f ++ ';' :: (dec x ++ ';' :: (dec y ++ [t]))) := by
    rw [mouse_lead_toList]
    simp [List.append_assoc]
  have h := parse_mouse_event_of_fields (dec f) (dec x) (dec y) t hF hFd
    (by rw [hFv]; omega) hX hXd (by rw [hXv]; omega) hY hYd (by rw [hYv]; omega)
    (by omega) ht
  rw [e, h, hFv, hXv, hYv]
  rfl

/-- Witness of C25: the press report of the spec's scenario. -/
theorem parse_mouse_event_report_witness :
    32 < 2 ^ 31 ∧ 10 < 2 ^ 31 ∧ 5 < 2 ^ 31 ∧ ('M' = 'M' ∨ 'M' = 'm')
      ∧ Input.parse_mouse_event "[<32;10;5M".toList
          = .ok { x := 10, y := 5, pressed := true, button := 0, modifiers := 0 } :=
  ⟨by decide, by decide, by decide, Or.inl rfl,
    parse_mouse_event_report 32 10 5 'M' (by decide) (by decide) (by decide) (Or.inl rfl)⟩

/-- C26 (as stated, refuted): a segment with characters after its digits (`10x`) is read as
the number in front, and a report whose terminator stands before the second `;` is parsed
as well. -/
theorem parse_mouse_event_lenient_counterexample :
    Input.parse_mouse_event "[<32;10x;5M".toList
        = .ok { x := 10, y := 5, pressed := true, button := 0, modifiers := 0 }
      ∧ Input.parse_mouse_event "[<3M;10;5".toList
        = .ok { x := 10, y := 5, pressed := true, button := 3, modifiers := 0 }
      ∧ stoi "10x".toList = .ok (10, 2) :=
  ⟨rfl, rfl, rfl⟩

theorem parse_mouse_event_ok_inv (str : Str) (ev : MouseEvent)
    (h : Input.parse_mouse_event str = .ok ev) :
    ¬ (find str ';' 0 = npos ∨ find str ';' (size_add (find str ';' 0) 1) = npos
        ∨ find_first_of str "Mm".toList = npos)
      ∧ (∃ r, (substr str 2 (size_sub (find str ';' 0) 2)).bind stoi = .ok r)
      ∧ (∃ r, (substr str (size_add (find str ';' 0) 1)
          (size_sub (size_sub (find str ';' (size_add (find str ';' 0) 1))
            (find str ';' 0)) 1)).bind stoi = .ok r)
      ∧ (∃ r, (substr str (size_add (find str ';' (size_add (find str ';' 0) 1)) 1)
          (size_sub (size_sub (find_first_of str "Mm".toList)
            (find str ';' (size_add (find str ';' 0) 1))) 1)).bind stoi = .ok r) := by
  unfold Input.parse_mouse_event at h
  simp only [] at h
  split_ifs at h with hc
  refine ⟨hc, ?_⟩
  revert h
  simp only [bind, Except.bind, pure, Except.pure]
  cases substr str 2 (size_sub (find str ';' 0) 2) with
  | error e => simp
  | ok fs =>
    dsimp only
    cases stoi fs with
    | error e => simp
    | ok flags =>
      dsimp only
      cases substr str (size_add (find str ';' 0) 1)
          (size_sub (size_sub (find str ';' (size_add (find str ';' 0) 1)) (find str ';' 0)) 1) with
      | error e => simp
      | ok xs =>
        dsimp only
        cases stoi xs with
        | error e => simp
        | ok x =>
          dsimp only
          cases substr str (size_add (find str ';' (size_add (find str ';' 0) 1)) 1)
              (size_sub (size_sub (find_first_of str "Mm".toList)
                (find str ';' (size_add (find str ';' 0) 1))) 1) with
          | error e => simp
          | ok ys =>
            dsimp only
            cases stoi ys with
            | error e => simp
            | ok y =>
              intro _
              exact ⟨⟨flags, rfl⟩, ⟨x, rfl⟩, ⟨y, rfl⟩⟩

theorem parse_mouse_event_error_of_not_ok (str : Str)
    (h : ∀ ev, Input.parse_mouse_event str ≠ .ok ev) :
    ∃ e, Input.parse_mouse_event str = .error e := by
  cases hp : Input.parse_mouse_event str with
  | error e => exact ⟨e, rfl⟩
  | ok ev => exact absurd hp (h ev)

/-- C26 (amended): `parse_mouse_event` fails when a `;` or the terminator is missing, and
when the flags, `x` or `y` segment cannot be cut out or `std::stoi` fails on it. `std::stoi`
accepts a segment exactly when, after optional white space and an optional sign, it starts
with decimal digits whose value fits an `int`; what follows the digits is ignored. So an
empty segment fails, a segment such as `10x` does not. -/
theorem parse_mouse_event_failures (str : Str) :
    ((find str ';' 0 = npos ∨ find str ';' (size_add (find str ';' 0) 1) = npos
          ∨ find_first_of str "Mm".toList = npos)
        → Input.parse_mouse_event str = .error (.runtime_error "Invalid mouse sequence"))
      ∧ ((∃ e, (substr str 2 (size_sub (find str ';' 0) 2)).bind stoi = .error e)
        → ∃ e, Input.parse_mouse_event str = .error e)
      ∧ ((∃ e, (substr str (size_add (find str ';' 0) 1)
            (size_sub (size_sub (find str ';' (size_add (find str ';' 0) 1))
              (find str ';' 0)) 1)).bind stoi = .error e)
        → ∃ e, Input.parse_mouse_event str = .error e)
      ∧ ((∃ e, (substr str (size_add (find str ';' (size_add (find str ';' 0) 1)) 1)
            (size_sub (size_sub (find_first_of str "Mm".toList)
              (find str ';' (size_add (find str ';' 0) 1))) 1)).bind stoi = .error e)
        → ∃ e, Input.parse_mouse_event str = .error e)
      ∧ (∀ seg : Str, (∃ r, stoi seg = .ok r)
          ↔ ∃ ws sg ds tl : Str, seg = ws ++ sg ++ ds ++ tl
              ∧ (∀ c ∈ ws, isspace c = true)
              ∧ (sg = [] ∨ sg = ['+'] ∨ sg = ['-'])
              ∧ ds ≠ []
              ∧ (∀ c ∈ ds, isdigit c = true)
              ∧ (∀ c, tl.head? = some c → isdigit c = false)
              ∧ -(2 : Int) ^ 31 ≤ (if sg = ['-'] then -(digitsVal ds : Int)
                  else (digitsVal ds : Int))
              ∧ (if sg = ['-'] then -(digitsVal ds : Int) else (digitsVal ds : Int))
                  ≤ (2 : Int) ^ 31 - 1)
      ∧ stoi [] = .error .invalid_argument := by
  refine ⟨?_, ?_, ?_, ?_, ?_, rfl⟩
  · intro hc
    unfold Input.parse_mouse_event
    simp only []
    rw [if_pos hc]
  · rintro ⟨e, he⟩
    apply parse_mouse_event_error_of_not_ok
    intro ev hev
    obtain ⟨r, hr⟩ := (parse_mouse_event_ok_inv str ev hev).2.1
    rw [he] at hr
    cases hr
  · rintro ⟨e, he⟩
    apply parse_mouse_event_error_of_not_ok
    intro ev hev
    obtain ⟨r, hr⟩ := (parse_mouse_event_ok_inv str ev hev).2.2.1
    rw [he] at hr
    cases hr
  · rintro ⟨e, he⟩
    apply parse_mouse_event_error_of_not_ok
    intro ev hev
    obtain ⟨r, hr⟩ := (parse_mouse_event_ok_inv str ev hev).2.2.2
    rw [he] at hr
    cases hr
  · intro seg
    constructor
    · rintro ⟨⟨v, pos⟩, hr⟩
      obtain ⟨ws, sg, ds, tl, hstr, hws, hsg, hne, hds, htl, _, hv, hlo, hhi⟩ :=
        stoi_ok_parts seg v pos hr
      rw [hv] at hlo hhi
      exact ⟨ws, sg, ds, tl, hstr, hws, hsg, hne, hds, htl, hlo, hhi⟩
    · rintro ⟨ws, sg, ds, tl, hstr, hws, hsg, hne, hds, htl, hlo, hhi⟩
      have h := stoi_of_parts ws sg ds tl hws hsg hne hds htl
      rw [← hstr] at h
      rw [if_neg (by simp only [not_or, not_lt]; exact ⟨hlo, hhi⟩)] at h
      exact ⟨_, h⟩

theorem starts_with_csi_iff (input : Str) :
    starts_with input "\x1b[".toList = true ↔ ∃ k, input = '\x1b' :: '[' :: k := by
  unfold starts_with
  rw [csi_toList, List.isPrefixOf_iff_prefix]
  constructor
  · rintro ⟨t, ht⟩
    exact ⟨t, ht.symm⟩
  · rintro ⟨k, hk⟩
    exact ⟨k, hk.symm⟩

theorem lookup_mem {α β : Type} [BEq α] (k : α) (v : β) (l : List (α × β))
    (h : l.lookup k = some v) : ∃ k', (k', v) ∈ l := by
  induction l with
  | nil => simp at h
  | cons a t ih =>
    obtain ⟨a1, a2⟩ := a
    rw [List.lookup_cons] at h
    cases hk : (k == a1) with
    | true =>
      simp only [hk, Option.some.injEq] at h
      subst h
      exact ⟨a1, List.mem_cons_self _ _⟩
    | false =>
      simp only [hk] at h
      obtain ⟨k', hk'⟩ := ih h
      exact ⟨k', List.mem_cons_of_mem _ hk'⟩

theorem escape_chars_lookup_ne_NONE (k : Str) (code : EscapeCodes)
    (h : Input.escape_chars.lookup k = some code) : code ≠ EscapeCodes.NONE := by
  obtain ⟨k', hk'⟩ := lookup_mem k code Input.escape_chars h
  have hall : ∀ e ∈ Input.escape_chars, e.2 ≠ EscapeCodes.NONE := by decide
  exact hall (k', code) hk'

theorem escape_chars_lookup_mouse_lead (r : Str) :
    Input.escape_chars.lookup ('[' :: '<' :: r) = none := by
  simp [Input.escape_chars, List.lookup]

theorem starts_with_mouse_lead_iff (key : Str) :
    starts_with key "[<".toList = true ↔ ∃ r, key = '[' :: '<' :: r := by
  unfold starts_with
  rw [mouse_lead_toList, List.isPrefixOf_iff_prefix]
  constructor
  · rintro ⟨t, ht⟩
    exact ⟨t, ht.symm⟩
  · rintro ⟨k, hk⟩
    exact ⟨k, hk.symm⟩

theorem char_event_some (key : Str) (ev : KeyEvent) (h : Input.char_event key = some ev) :
    ev.type = EventType.Char ∧ 0x20 ≤ ev.ch ∧ ev.ch ≤ 0x7E ∧ ev.escape = EscapeCodes.NONE
      ∧ ev.mouse = MouseEvent.zero := by
  unfold Input.char_event at h
  split at h
  · dsimp only at h
    split_ifs at h with hc
    simp only [Option.some.injEq] at h
    subst h
    have := hc.2
    exact ⟨rfl, hc.1, by show _ ≤ 126; dsimp only; omega, rfl, rfl⟩
  · cases h

/-- The three ways in which `Input::get` returns an event. -/
theorem get_some_cases (input : Str) (ev : KeyEvent) (h : Input.get input = some ev) :
    (∃ r m, input = '\x1b' :: '[' :: '[' :: '<' :: r
        ∧ Input.parse_mouse_event ('[' :: '<' :: r) = .ok m
        ∧ ev = { type := .Mouse, ch := 0, escape := .NONE, mouse := m })
      ∨ (∃ k code, input = '\x1b' :: '[' :: k ∧ Input.escape_chars.lookup k = some code
        ∧ ev = { type := .Spec, ch := 0, escape := code, mouse := MouseEvent.zero })
      ∨ (∃ key, Input.char_event key = some ev) := by
  unfold Input.get at h
  dsimp only at h
  split_ifs at h with h0 h1 h2
  · obtain ⟨k, hk⟩ := (starts_with_csi_iff input).1 h1
    subst hk
    simp only [List.drop_succ_cons, List.drop_zero] at h h2
    obtain ⟨r, hr⟩ := (starts_with_mouse_lead_iff _).1 h2
    left
    cases hp : Input.parse_mouse_event k with
    | error e => simp [hp] at h
    | ok m =>
      simp only [hp, Option.some.injEq] at h
      subst hr
      exact ⟨r, m, rfl, hp, h.symm⟩
  · obtain ⟨k, hk⟩ := (starts_with_csi_iff input).1 h1
    subst hk
    simp only [List.drop_succ_cons, List.drop_zero] at h
    cases hl : Input.escape_chars.lookup k with
    | none =>
      simp only [hl] at h
      exact Or.inr (Or.inr ⟨k, h⟩)
    | some code =>
      simp only [hl, Option.some.injEq] at h
      exact Or.inr (Or.inl ⟨k, code, rfl, hl, h.symm⟩)
  · exact Or.inr (Or.inr ⟨input, h⟩)

/-- C29: `Input::get` returns a `Spec` event exactly when the buffer is `ESC [` followed by
a key `k` of `escape_chars`; the event then carries the code `escape_chars[k]`, `ch = 0` and
a zeroed mouse field. `ESC [ [ A` gives `AR_UP` and `ESC [` followed by a space gives
`SPACE`. -/
theorem get_spec_iff (input : Str) (ev : KeyEvent) :
    ((Input.get input = some ev ∧ ev.type = EventType.Spec)
        ↔ ∃ k code, input = '\x1b' :: '[' :: k ∧ Input.escape_chars.lookup k = some code
            ∧ ev = { type := .Spec, ch := 0, escape := code, mouse := MouseEvent.zero })
      ∧ Input.get "\x1b[[A".toList
          = some { type := .Spec, ch := 0, escape := .AR_UP, mouse := MouseEvent.zero }
      ∧ Input.get "\x1b[ ".toList
          = some { type := .Spec, ch := 0, escape := .SPACE, mouse := MouseEvent.zero } := by
  refine ⟨⟨?_, ?_⟩, by decide, by decide⟩
  · rintro ⟨h, ht⟩
    rcases get_some_cases input ev h with ⟨r, m, _, _, he⟩ | hs | ⟨key, hc⟩
    · rw [he] at ht
      cases ht
    · exact hs
    · rw [(char_event_some key ev hc).1] at ht
      cases ht
  · rintro ⟨k, code, hk, hl, he⟩
    subst hk
    subst he
    refine ⟨?_, rfl⟩
    have h2 : starts_with k "[<".toList = false := by
      cases h : starts_with k "[<".toList with
      | false => rfl
      | true =>
        obtain ⟨r, hr⟩ := (starts_with_mouse_lead_iff k).1 h
        rw [hr, escape_chars_lookup_mouse_lead] at hl
        cases hl
    have h1 : starts_with ('\x1b' :: '[' :: k) "\x1b[".toList = true :=
      (starts_with_csi_iff _).2 ⟨k, rfl⟩
    unfold Input.get
    simp only [List.isEmpty_cons, Bool.false_eq_true, if_false, h1, if_true,
      List.drop_succ_cons, List.drop_zero, h2, hl]

/-- C30: every event returned by `Input::get` is well formed: its type is never `None`; a
`Char` event has `0x20 <= ch <= 0x7E`, escape code `NONE` and a zeroed mouse field; a `Spec`
event has `ch = 0`, an escape code other than `NONE` and a zeroed mouse field; a `Mouse`
event has `ch = 0` and escape code `NONE`. -/
theorem get_event_well_formed (input : Str) (ev : KeyEvent)
    (h : Input.get input = some ev) :
    ev.type ≠ EventType.None
      ∧ (ev.type = EventType.Char →
          0x20 ≤ ev.ch ∧ ev.ch ≤ 0x7E ∧ ev.escape = EscapeCodes.NONE
            ∧ ev.mouse = MouseEvent.zero)
      ∧ (ev.type = EventType.Spec →
          ev.ch = 0 ∧ ev.escape ≠ EscapeCodes.NONE ∧ ev.mouse = MouseEvent.zero)
      ∧ (ev.type = EventType.Mouse → ev.ch = 0 ∧ ev.escape = EscapeCodes.NONE) := by
  rcases get_some_cases input ev h with ⟨r, m, _, _, he⟩ | ⟨k, code, _, hl, he⟩ | ⟨key, hc⟩
  · subst he
    refine ⟨(fun ht => by cases ht), ?_, ?_, fun _ => ⟨rfl, rfl⟩⟩ <;> intro ht <;> cases ht
  · subst he
    refine ⟨(fun ht => by cases ht), ?_,
      fun _ => ⟨rfl, escape_chars_lookup_ne_NONE k code hl, rfl⟩, ?_⟩
      <;> intro ht <;> cases ht
  · obtain ⟨h1, h2, h3, h4, h5⟩ := char_event_some key ev hc
    refine ⟨by rw [h1]; decide, fun _ => ⟨h2, h3, h4, h5⟩, ?_, ?_⟩
      <;> intro ht <;> rw [h1] at ht <;> cases ht

/-- Witness of C30: the events of a printable byte, of a table key and of a mouse report. -/
theorem get_event_well_formed_witness :
    Input.get "q".toList
        = some { type := .Char, ch := 0x71, escape := .NONE, mouse := MouseEvent.zero }
      ∧ (0x20 ≤ 0x71 ∧ 0x71 ≤ 0x7E)
      ∧ Input.get "\x1b[[5~".toList
        = some { type := .Spec, ch := 0, escape := .PG_UP, mouse := MouseEvent.zero }
      ∧ EscapeCodes.PG_UP ≠ EscapeCodes.NONE := by
  have h1 : Input.get "q".toList
      = some { type := .Char, ch := 0x71, escape := .NONE, mouse := MouseEvent.zero } := by
    decide
  have h2 : Input.get "\x1b[[5~".toList
      = some { type := .Spec, ch := 0, escape := .PG_UP, mouse := MouseEvent.zero } := by
    decide
  have w1 := (get_event_well_formed _ _ h1).2.1 rfl
  have w2 := (get_event_well_formed _ _ h2).2.2.1 rfl
  exact ⟨h1, ⟨w1.1, w1.2.1⟩, h2, w2.2.1⟩

/-! ## The validator of `graph_symbol` -/

/-- C31: on a manager whose validators are installed, `set<string>("graph_symbol", v)`
succeeds exactly when `v` is `braille`, `block`, `tty` or `default`, compared character by
character, and a rejected value leaves the manager, hence `graph_symbol`, as it was. When
the string store had no validator before `setup_validators`, no other string key has one
afterwards, and `set<string>` on such a key accepts every string. -/
theorem graph_symbol_validator (m : CfgManager)
    (hfresh : ∀ k, m.string_store.validators k = none) :
    (∀ v, (m.setup_validators.set_string "graph_symbol" v).1 = .ok true
        ↔ (v = "braille" ∨ v = "block" ∨ v = "tty" ∨ v = "default"))
      ∧ (∀ v, ¬ (v = "braille" ∨ v = "block" ∨ v = "tty" ∨ v = "default") →
          m.setup_validators.set_string "graph_symbol" v
              = (.error .ValidationFailed, m.setup_validators)
            ∧ (m.setup_validators.set_string "graph_symbol" v).2.get_string "graph_symbol"
              = m.setup_validators.get_string "graph_symbol")
      ∧ (∀ k, k ≠ "graph_symbol" → m.setup_validators.string_store.validators k = none)
      ∧ (∀ k v, k ≠ "graph_symbol" →
          (m.setup_validators.set_string k v).1 = .ok true
            ∧ (m.setup_validators.set_string k v).2.get_string k = .ok v) := by
  have hiff : ∀ v, (m.setup_validators.set_string "graph_symbol" v).1 = .ok true
      ↔ (v = "braille" ∨ v = "block" ∨ v = "tty" ∨ v = "default") := by
    intro v
    show (m.setup_validators.string_store.set "graph_symbol" v).1 = .ok true ↔ _
    rw [CfgStore.set_ok_iff]
    simp [CfgManager.setup_validators, CfgStore.add_validator, CfgMap.assign,
      CfgManager.valid_graph_symbols]
  have hnone : ∀ k, k ≠ "graph_symbol" →
      m.setup_validators.string_store.validators k = none := by
    intro k hk
    simp [CfgManager.setup_validators, CfgStore.add_validator, CfgMap.assign, hk, hfresh k]
  refine ⟨hiff, ?_, hnone, ?_⟩
  · intro v hv
    have hno : ¬ (m.setup_validators.string_store.set "graph_symbol" v).1 = .ok true :=
      fun h => hv ((hiff v).1 h)
    have h := CfgStore.set_not_ok m.setup_validators.string_store "graph_symbol" v hno _ rfl
    have e : m.setup_validators.set_string "graph_symbol" v
        = (.error .ValidationFailed, m.setup_validators) := by
      simp [CfgManager.set_string, h]
    rw [e]
    exact ⟨rfl, rfl⟩
  · intro k v hk
    have hv : ∀ p, m.setup_validators.string_store.validators k = some p → p v = true := by
      intro p hp
      rw [hnone k hk] at hp
      cases hp
    exact ⟨(CfgStore.set_ok_iff _ _ _).2 hv, CfgStore.set_get_same _ k v hv⟩

/-- Witness of C31: a freshly constructed manager; `Braille` with a capital letter is
rejected, `graph_symbol_cpu` takes any string. -/
theorem graph_symbol_validator_witness :
    (∀ k, CfgManager.new.string_store.validators k = none)
      ∧ (CfgManager.new.setup_validators.set_string "graph_symbol" "tty").1 = .ok true
      ∧ CfgManager.new.setup_validators.set_string "graph_symbol" "Braille"
          = (.error .ValidationFailed, CfgManager.new.setup_validators)
      ∧ (CfgManager.new.setup_validators.set_string "graph_symbol_cpu" "dots").1 = .ok true
      ∧ (CfgManager.new.setup_validators.set_string "graph_symbol_cpu" "dots").2.get_string
          "graph_symbol_cpu" = .ok "dots" := by
  have hfresh : ∀ k, CfgManager.new.string_store.validators k = none := fun _ => rfl
  have h := graph_symbol_validator CfgManager.new hfresh
  have h3 := h.2.2.2 "graph_symbol_cpu" "dots" (by decide)
  exact ⟨hfresh, (h.1 "tty").2 (Or.inr (Or.inr (Or.inl rfl))),
    (h.2.1 "Braille" (by decide)).1, h3.1, h3.2⟩

end Btop
